import Mathlib

/-!
Verification of the LaserBench core: a shallow embedding in Lean 4 of the
laser-path simulator and the puzzle generator found in
`scripts/test_all_providers.py` (the richer of the two scripts; the
functions shared with `scripts/test_gemini.py` — `get_next_direction`,
`col_to_letter`, the boundary checks and the initialization of
`simulate_laser` — are textually identical there).

Modelling conventions:
* grids are `List (List String)` of cell glyphs, exactly the Python
  `list[list[str]]`;
* Python `int` coordinates are `Int` (they go negative at the left/top
  boundary);
* the Python `while True:` loop of `simulate_laser` is modelled as a step
  function `simStep` plus a fuel-indexed iterator `simLoop`; `none` marks
  the diverging runs the Python loop never leaves (a pure portal cycle
  skips the runaway check via `continue`);
* Python `set` / `dict` mirror-state containers are association lists with
  Python's update semantics (`assocInsert` replaces in place or appends);
* `random.randint` / `random.random() < 0.5` draws are consumed from an
  explicit `List Nat` stream, so theorems quantify over every possible
  sequence of random outcomes; an exhausted stream yields `none`.
-/

/-- Direction literal type from the source (`Direction = Literal[...]`). -/
inductive Direction where
  | right
  | left
  | up
  | down
deriving DecidableEq, Repr

/-- `PORTAL_CELLS = ["1", "2", "3"]`. -/
def PORTAL_CELLS : List String := ["1", "2", "3"]

/-- `DEGRADING_MIRRORS = {"~": "/", "`": "\\"}`. -/
def DEGRADING_MIRRORS : List (String × String) := [("~", "/"), ("`", "\\")]

/-- `TOGGLE_MIRRORS_ON = {"[/": "/", "[\\": "\\"}`. -/
def TOGGLE_MIRRORS_ON : List (String × String) := [("[/", "/"), ("[\\", "\\")]

/-- `TOGGLE_MIRRORS_OFF = {"]/": "/", "]\\": "\\"}`. -/
def TOGGLE_MIRRORS_OFF : List (String × String) := [("]/", "/"), ("]\\", "\\")]

/-- `FLIPPING_MIRRORS = {"\x7b/": "/", "\x7b\\": "\\"}`. -/
def FLIPPING_MIRRORS : List (String × String) := [("\x7b/", "/"), ("\x7b\\", "\\")]

/-- Python `key in dict` for the glyph dictionaries. -/
def dictMem (d : List (String × String)) (k : String) : Bool :=
  match d with
  | [] => false
  | (k', _) :: rest => if k' = k then true else dictMem rest k

/-- Python `dict.get(key)` for the glyph dictionaries. -/
def dictGet (d : List (String × String)) (k : String) : Option String :=
  match d with
  | [] => none
  | (k', v) :: rest => if k' = k then some v else dictGet rest k

/-- Python `dict[key]` lookup on the per-position mirror-state dictionaries
(`toggle_state`, `flip_state`), modelled as association lists. -/
def assocLookup {α : Type} (m : List ((Int × Int) × α)) (k : Int × Int) : Option α :=
  match m with
  | [] => none
  | (k', v) :: rest => if k' = k then some v else assocLookup rest k

/-- Python `dict[key] = value`: replace the binding in place if the key is
present, otherwise append it. -/
def assocInsert {α : Type} (m : List ((Int × Int) × α)) (k : Int × Int) (v : α) :
    List ((Int × Int) × α) :=
  match m with
  | [] => [(k, v)]
  | (k', v') :: rest =>
    if k' = k then (k, v) :: rest else (k', v') :: assocInsert rest k v

/-- `grid[row][col]` under the guards `0 <= row < rows`, `0 <= col < cols`
that precede every access in the source. -/
def cellAt (grid : List (List String)) (row col : Int) : String :=
  (grid.getD row.toNat []).getD col.toNat "."

/-- `grid[r][c] = v` (only ever executed on in-range indices). -/
def setCell (grid : List (List String)) (r c : Nat) (v : String) : List (List String) :=
  grid.set r ((grid.getD r []).set c v)

/-- `get_next_direction(current, mirror)` from the source: `"/"` gets the
slash reflection table, every other glyph the backslash table. -/
def get_next_direction (current : Direction) (mirror : String) : Direction :=
  if mirror = "/" then
    match current with
    | .right => .up
    | .left => .down
    | .up => .right
    | .down => .left
  else
    match current with
    | .right => .down
    | .left => .up
    | .up => .left
    | .down => .right

/-- The loop body of `col_to_letter` on the non-negative part:
`while col > 0: col -= 1; result = chr(ord("A") + col % 26) + result; col //= 26`. -/
def col_to_letter_nat : Nat → String
  | 0 => ""
  | n + 1 => col_to_letter_nat (n / 26) ++ String.singleton (Char.ofNat (65 + n % 26))
decreasing_by
  exact Nat.lt_succ_of_le (Nat.div_le_self n 26)

/-- `col_to_letter(col)` (an `int` in the source; the loop does not run for
`col <= 0`, which `Int.toNat` reproduces). -/
def col_to_letter (col : Int) : String :=
  col_to_letter_nat col.toNat

/-- `find_portal_exit(grid, portal_char, entry_row, entry_col)`: row-major
scan for the first other cell holding the same glyph. -/
def find_portal_exit (grid : List (List String)) (portal_char : String)
    (entry_row entry_col : Int) : Option (Int × Int) :=
  let rows := grid.length
  let cols := (grid.getD 0 []).length
  ((List.range rows).flatMap fun r => (List.range cols).map fun c => ((r : Int), (c : Int))).find?
    fun p =>
      decide (cellAt grid p.1 p.2 = portal_char ∧ (p.1 ≠ entry_row ∨ p.2 ≠ entry_col))

/-- One entry of the `path` list: the dict `{"row": .., "col": .., "direction": ..}`. -/
structure PathEntry where
  row : Int
  col : Int
  direction : Direction
deriving DecidableEq, Repr

/-- An exit position: `row + 1` (an int) for left/right exits,
`col_to_letter(col + 1)` (a string) for top/bottom exits. -/
inductive ExitPos where
  | num (n : Int)
  | letters (s : String)
deriving DecidableEq, Repr

/-- The `{"edge": .., "position": ..}` exit descriptor. -/
structure ExitInfo where
  edge : String
  position : ExitPos
deriving DecidableEq, Repr

/-- The dict returned by `simulate_laser` (via `make_result`), including the
`mirror_state` sub-dict. -/
structure SimResult where
  path : List PathEntry
  exit : ExitInfo
  bounces : Nat
  teleports : Nat
  degraded : List (Int × Int)
  toggle_state : List ((Int × Int) × Bool)
  flip_state : List ((Int × Int) × String)
deriving DecidableEq, Repr

/-- The mutable local state of one `simulate_laser` call.  The grid is
threaded through the state so that the frame property (the trace never
writes to the grid) is a provable statement rather than a convention. -/
structure SimState where
  grid : List (List String)
  row : Int
  col : Int
  direction : Direction
  bounces : Nat
  teleports : Nat
  path : List PathEntry
  degraded_mirrors : List (Int × Int)
  toggle_state : List ((Int × Int) × Bool)
  flip_state : List ((Int × Int) × String)
deriving DecidableEq, Repr

/-- `make_result(edge, position)` closing over the loop state. -/
def make_result (s : SimState) (edge : String) (position : ExitPos) : SimResult :=
  { path := s.path
    exit := { edge := edge, position := position }
    bounces := s.bounces
    teleports := s.teleports
    degraded := s.degraded_mirrors
    toggle_state := s.toggle_state
    flip_state := s.flip_state }

/-- The common one-cell advance
`if direction == "right": col += 1 elif ...` applied to a state. -/
def advance (s : SimState) : SimState :=
  match s.direction with
  | .right => { s with col := s.col + 1 }
  | .left => { s with col := s.col - 1 }
  | .up => { s with row := s.row - 1 }
  | .down => { s with row := s.row + 1 }

/-- Outcome of the cell dispatch: `moved` is the portal branch that ends in
`continue` (it performed its own movement and skips both the normal advance
and the runaway check); `normal` falls through to the advance. -/
inductive CellOut where
  | moved (s : SimState)
  | normal (s : SimState)
deriving Repr

/-- The `cell = grid[row][col]` dispatch of the loop body (everything
between the `path.append` and the normal advance). -/
def process_cell (s : SimState) : CellOut :=
  let cell := cellAt s.grid s.row s.col
  let pos : Int × Int := (s.row, s.col)
  if cell = "/" ∨ cell = "\\" then
    .normal { s with direction := get_next_direction s.direction cell,
                     bounces := s.bounces + 1 }
  else if dictMem DEGRADING_MIRRORS cell then
    if pos ∈ s.degraded_mirrors then
      .normal s
    else
      let mirror_type := (dictGet DEGRADING_MIRRORS cell).getD ""
      .normal { s with direction := get_next_direction s.direction mirror_type,
                       bounces := s.bounces + 1,
                       degraded_mirrors := s.degraded_mirrors ++ [pos] }
  else if dictMem TOGGLE_MIRRORS_ON cell || dictMem TOGGLE_MIRRORS_OFF cell then
    let ts :=
      match assocLookup s.toggle_state pos with
      | some _ => s.toggle_state
      | none => assocInsert s.toggle_state pos (dictMem TOGGLE_MIRRORS_ON cell)
    let cur := (assocLookup ts pos).getD false
    let s1 :=
      if cur then
        { s with direction := get_next_direction s.direction
                   (((dictGet TOGGLE_MIRRORS_ON cell).orElse
                     fun _ => dictGet TOGGLE_MIRRORS_OFF cell).getD ""),
                 bounces := s.bounces + 1,
                 toggle_state := ts }
      else
        { s with toggle_state := ts }
    .normal { s1 with toggle_state := assocInsert s1.toggle_state pos (!cur) }
  else if dictMem FLIPPING_MIRRORS cell then
    let fs :=
      match assocLookup s.flip_state pos with
      | some _ => s.flip_state
      | none => assocInsert s.flip_state pos ((dictGet FLIPPING_MIRRORS cell).getD "")
    let current_orientation := (assocLookup fs pos).getD ""
    .normal { s with direction := get_next_direction s.direction current_orientation,
                     bounces := s.bounces + 1,
                     flip_state := assocInsert fs pos
                       (if current_orientation = "/" then "\\" else "/") }
  else if cell ∈ PORTAL_CELLS then
    match find_portal_exit s.grid cell s.row s.col with
    | some rc =>
      .moved (advance { s with teleports := s.teleports + 1, row := rc.1, col := rc.2 })
    | none => .normal s
  else
    .normal s

/-- Result of one iteration of the `while True:` loop. -/
inductive StepOut where
  | exit (r : SimResult)
  | cont (s : SimState)
deriving Repr

/-- One iteration of the `while True:` loop of `simulate_laser`: boundary
checks, `path.append`, cell dispatch, advance (unless a portal `continue`d),
and the `len(path) > 1000` runaway break that returns
`make_result("right", 1)`. -/
def simStep (s : SimState) : StepOut :=
  let rows : Int := s.grid.length
  let cols : Int := (s.grid.getD 0 []).length
  if s.row < 0 then
    .exit (make_result s "top" (.letters (col_to_letter (s.col + 1))))
  else if s.row ≥ rows then
    .exit (make_result s "bottom" (.letters (col_to_letter (s.col + 1))))
  else if s.col < 0 then
    .exit (make_result s "left" (.num (s.row + 1)))
  else if s.col ≥ cols then
    .exit (make_result s "right" (.num (s.row + 1)))
  else
    let s1 := { s with path := s.path ++ [{ row := s.row, col := s.col, direction := s.direction }] }
    match process_cell s1 with
    | .moved s2 => .cont s2
    | .normal s2 =>
      let s3 := advance s2
      if s3.path.length > 1000 then
        .exit (make_result s3 "right" (.num 1))
      else
        .cont s3

/-- The loop, driven by fuel; `none` is a run the Python loop never leaves. -/
def simLoop : Nat → SimState → Option SimResult
  | 0, _ => none
  | fuel + 1, s =>
    match simStep s with
    | .exit r => some r
    | .cont s' => simLoop fuel s'

/-- The local-variable initialization of `simulate_laser`:
`row = start_row; col = 0; direction = start_direction`, counters at zero,
empty path and empty mirror-state containers. -/
def init_state (grid : List (List String)) (start_row : Int)
    (start_direction : Direction) : SimState :=
  { grid := grid
    row := start_row
    col := 0
    direction := start_direction
    bounces := 0
    teleports := 0
    path := []
    degraded_mirrors := []
    toggle_state := []
    flip_state := [] }

/-- `simulate_laser(grid, start_row, start_direction)`. -/
def simulate_laser (grid : List (List String)) (start_row : Int)
    (start_direction : Direction) (fuel : Nat) : Option SimResult :=
  simLoop fuel (init_state grid start_row start_direction)

/-- The state reached after `n` completed loop iterations (`none` once the
loop has exited or would diverge). -/
def traj (s : SimState) : Nat → Option SimState
  | 0 => some s
  | n + 1 =>
    match traj s n with
    | some s' =>
      match simStep s' with
      | .cont s'' => some s''
      | .exit _ => none
    | none => none

/-- The position processed at iteration `m` of a run. -/
def posAt (s0 : SimState) (m : Nat) : Option (Int × Int) :=
  (traj s0 m).map fun s => (s.row, s.col)

/-- Number of iterations before iteration `n` that processed position `pos`
(the number of earlier visits of that cell). -/
def visitCountBefore (s0 : SimState) (pos : Int × Int) (n : Nat) : Nat :=
  ((List.range n).filter fun m => posAt s0 m = some pos).length

/-- `str.rjust(2)` for the row-number column of the renderer. -/
def rjust2 (s : String) : String :=
  if s.length < 2 then String.mk (List.replicate (2 - s.length) ' ') ++ s else s

/-- `generate_puzzle_ascii(grid, start_row)`: the fixed-width rendering with
column-letter header, borders and the `>` entry marker. -/
def generate_puzzle_ascii (grid : List (List String)) (start_row : Int) : String :=
  let rows := grid.length
  let cols := (grid.getD 0 []).length
  let border := "  +" ++ String.mk (List.replicate (cols * 2 + 1) '-') ++ "+"
  let header :=
    "    " ++ String.join ((List.range cols).map fun c => col_to_letter (c + 1) ++ " ") ++ "\n"
  let body :=
    String.join ((List.range rows).map fun r =>
      let row_num := rjust2 (toString (r + 1))
      let arrow := if (r : Int) = start_row then ">" else " "
      row_num ++ "|" ++ arrow ++
        String.join ((List.range cols).map fun c => cellAt grid r c ++ " ") ++ "|\n")
  header ++ border ++ "\n" ++ body ++ border

/-- `random.randint(lo, hi)`, drawing one value from the explicit stream of
random outcomes; every value of `[lo, hi]` is reachable, and theorems
quantify over all streams. -/
def randint (lo hi : Nat) : List Nat → Option (Nat × List Nat)
  | [] => none
  | v :: rest => some (lo + v % (hi - lo + 1), rest)

/-- `random.random() < 0.5`, drawn from the stream as a parity bit. -/
def coin : List Nat → Option (Bool × List Nat)
  | [] => none
  | v :: rest => some (decide (v % 2 = 0), rest)

/-- Glyph draw for a regular mirror: `"/" if random.random() < 0.5 else "\\"`. -/
def chooseNormal (stream : List Nat) : Option (String × List Nat) :=
  match coin stream with
  | none => none
  | some (b, s) => some (if b then "/" else "\\", s)

/-- Glyph draw for a degrading mirror: `"~" if random.random() < 0.5 else "`"`. -/
def chooseDegrading (stream : List Nat) : Option (String × List Nat) :=
  match coin stream with
  | none => none
  | some (b, s) => some (if b then "~" else "`", s)

/-- Glyph draw for a toggle mirror: orientation coin, then start-ON coin;
`"[" + mirror_type` when starting ON, `"]" + mirror_type` otherwise. -/
def chooseToggle (stream : List Nat) : Option (String × List Nat) :=
  match coin stream with
  | none => none
  | some (mt, s1) =>
    match coin s1 with
    | none => none
    | some (so, s2) =>
      some ((if so then "[" else "]") ++ (if mt then "/" else "\\"), s2)

/-- Glyph draw for a flipping mirror: `"\x7b/" if ... else "\x7b\\"`. -/
def chooseFlipping (stream : List Nat) : Option (String × List Nat) :=
  match coin stream with
  | none => none
  | some (b, s) => some (if b then "\x7b/" else "\x7b\\", s)

/-- Glyph "draw" for a portal pair: the fixed glyph `PORTAL_CELLS[p]`,
consuming no randomness. -/
def choosePortal (p : Nat) (stream : List Nat) : Option (String × List Nat) :=
  some (PORTAL_CELLS.getD p "", stream)

/-- One `while placed < count:` rejection-sampling loop of `generate_grid`:
draw a row and a column, and if the cell is empty draw the glyph and place
it.  The loops of the source are identical up to the glyph draw, passed
here as `choose`.  The fuel argument bounds the retries; callers pass the
stream length, which the loop can never outlast because every iteration
consumes at least one stream element. -/
def place_elements (rows cols : Nat) (choose : List Nat → Option (String × List Nat)) :
    Nat → List (List String) → Nat → List Nat →
    Option (List (List String) × List Nat)
  | _, grid, 0, stream => some (grid, stream)
  | 0, _, _ + 1, _ => none
  | fuel + 1, grid, need + 1, stream =>
    match randint 0 (rows - 1) stream with
    | none => none
    | some (r, s1) =>
      match randint 0 (cols - 1) s1 with
      | none => none
      | some (c, s2) =>
        if cellAt grid r c = "." then
          match choose s2 with
          | none => none
          | some (glyph, s3) =>
            place_elements rows cols choose fuel (setCell grid r c glyph) need s3
        else
          place_elements rows cols choose fuel grid (need + 1) s2

/-- The `for p in range(min(portal_count, len(PORTAL_CELLS)))` loop placing
each requested portal id at two empty cells. -/
def place_portals (rows cols : Nat) :
    List Nat → List (List String) → List Nat → Option (List (List String) × List Nat)
  | [], grid, stream => some (grid, stream)
  | p :: rest, grid, stream =>
    match place_elements rows cols (choosePortal p) stream.length grid 2 stream with
    | none => none
    | some (g', s') => place_portals rows cols rest g' s'

/-- `generate_grid(rows, cols, mirror_count, portal_count, mirror_distribution)`.
The per-kind counts use `Nat` division for Python's
`int(mirror_count * pct / total_pct)`; for the magnitudes the source feeds
in (counts at most 50, percentages at most 100) the float quotient is
within far less than half a unit in the last place of the exact rational,
so the truncations agree.  Returns the grid and the unconsumed stream, or
`none` when the stream is exhausted (the situation in which the Python
rejection loops would retry forever or the caller would keep drawing). -/
def generate_grid (rows cols mirror_count portal_count : Nat)
    (mirror_distribution : Nat × Nat × Nat × Nat) (stream : List Nat) :
    Option (List (List String) × List Nat) :=
  let grid := List.replicate rows (List.replicate cols ".")
  let normal_pct := mirror_distribution.1
  let degrading_pct := mirror_distribution.2.1
  let toggle_pct := mirror_distribution.2.2.1
  let flipping_pct := mirror_distribution.2.2.2
  let total_pct := normal_pct + degrading_pct + toggle_pct + flipping_pct
  let normal_count := mirror_count * normal_pct / total_pct
  let degrading_count := mirror_count * degrading_pct / total_pct
  let toggle_count := mirror_count * toggle_pct / total_pct
  let flipping_count := mirror_count - normal_count - degrading_count - toggle_count
  match place_elements rows cols chooseNormal stream.length grid normal_count stream with
  | none => none
  | some (g1, s1) =>
    match place_elements rows cols chooseDegrading s1.length g1 degrading_count s1 with
    | none => none
    | some (g2, s2) =>
      match place_elements rows cols chooseToggle s2.length g2 toggle_count s2 with
      | none => none
      | some (g3, s3) =>
        match place_elements rows cols chooseFlipping s3.length g3 flipping_count s3 with
        | none => none
        | some (g4, s4) =>
          place_portals rows cols (List.range (min portal_count PORTAL_CELLS.length)) g4 s4

/-- Number of cells of the grid holding the glyph `ch`. -/
def countGrid (grid : List (List String)) (ch : String) : Nat :=
  (grid.map fun row => row.count ch).sum

/-- One entry of `PUZZLE_CONFIG`. -/
structure SizeConfig where
  rows : Nat × Nat
  cols : Nat × Nat
  mirrors : Nat × Nat
  portals : Nat
  mirror_distribution : Nat × Nat × Nat × Nat
  min_bounces : Nat
deriving DecidableEq, Repr

/-- `PUZZLE_CONFIG` from `puzzle_config.py`. -/
def PUZZLE_CONFIG : List (String × SizeConfig) :=
  [("small", ⟨(5, 6), (6, 8), (4, 6), 0, (100, 0, 0, 0), 3⟩),
   ("medium", ⟨(7, 9), (9, 12), (7, 10), 0, (100, 0, 0, 0), 5⟩),
   ("large", ⟨(10, 12), (13, 16), (18, 24), 0, (100, 0, 0, 0), 8⟩),
   ("extreme", ⟨(15, 20), (20, 26), (35, 50), 3, (25, 25, 25, 25), 18⟩)]

/-- The puzzle dict built by `generate_puzzle` for the best trial. -/
structure Puzzle where
  grid : List (List String)
  start_row : Nat
  ascii : String
  answer : ExitInfo
  path_length : Nat
  bounces : Nat
  teleports : Nat
deriving DecidableEq, Repr

/-- The `best_puzzle = { ... }` record construction of `generate_puzzle`. -/
def mkPuzzle (grid : List (List String)) (start_row : Nat) (result : SimResult) : Puzzle :=
  { grid := grid
    start_row := start_row
    ascii := generate_puzzle_ascii grid start_row
    answer := result.exit
    path_length := result.path.length
    bounces := result.bounces
    teleports := result.teleports }

/-- The `for _ in range(max_attempts)` trial loop of `generate_puzzle`:
build a grid, pick a start row, trace, score
(`bounces + teleports * 2`), keep the best, and break early once
`best_score >= min_bounces * 2`.  The outer `some` marks a loop that ran
to a `return`; the inner `Option Puzzle` is the Python `best_puzzle`
value, which remains `None` when no trial ever scores above 0. -/
def trial_loop (rows cols mirror_count portal_count : Nat)
    (mirror_distribution : Nat × Nat × Nat × Nat) (min_bounces sim_fuel : Nat) :
    Nat → Option Puzzle → Nat → List Nat → Option (Option Puzzle)
  | 0, best, _, _ => some best
  | n + 1, best, best_score, stream =>
    match generate_grid rows cols mirror_count portal_count mirror_distribution stream with
    | none => none
    | some (grid, s1) =>
      match randint 0 (rows - 1) s1 with
      | none => none
      | some (start_row, s2) =>
        match simulate_laser grid start_row .right sim_fuel with
        | none => none
        | some result =>
          let score := result.bounces + result.teleports * 2
          let best' := if score > best_score then some (mkPuzzle grid start_row result) else best
          let best_score' := if score > best_score then score else best_score
          if best_score' ≥ min_bounces * 2 then some best'
          else
            trial_loop rows cols mirror_count portal_count mirror_distribution
              min_bounces sim_fuel n best' best_score' s2

/-- `generate_puzzle(size, min_bounces)`: look up the size profile, sample
the concrete dimensions and mirror count, then run the 100-trial search.
`sim_fuel` bounds each `simulate_laser` call (whose Python loop can
genuinely diverge on pure portal cycles). -/
def generate_puzzle (size : String) (min_bounces : Option Nat) (sim_fuel : Nat)
    (stream : List Nat) : Option (Option Puzzle) :=
  match (PUZZLE_CONFIG.find? fun p => p.1 == size).map (fun p => p.2) with
  | none => none
  | some config =>
    match randint config.rows.1 config.rows.2 stream with
    | none => none
    | some (rows, s1) =>
      match randint config.cols.1 config.cols.2 s1 with
      | none => none
      | some (cols, s2) =>
        match randint config.mirrors.1 config.mirrors.2 s2 with
        | none => none
        | some (mirror_count, s3) =>
          trial_loop rows cols mirror_count config.portals config.mirror_distribution
            (min_bounces.getD config.min_bounces) sim_fuel 100 none 0 s3

/-- The guard that, at the top of a loop iteration, all four boundary
checks fail: the ray is still on the grid. -/
def inBounds (s : SimState) : Prop :=
  0 ≤ s.row ∧ s.row < (s.grid.length : Int) ∧
    0 ≤ s.col ∧ s.col < (((s.grid.getD 0 []).length : Nat) : Int)

/-- Random draws for one trial of the all-zero-score run: four mirrors in
row 0 at columns 1–4, start row 1 (so the ray crosses an empty row). -/
def c2Block : List Nat := [0, 1, 1, 0, 2, 1, 0, 3, 1, 0, 4, 1, 1]

/-- A full random stream for `generate_puzzle "small"`: 5 rows, 6 columns,
4 mirrors, then 100 trials that all score 0. -/
def c2Stream : List Nat := [0, 0, 0] ++ List.flatten (List.replicate 100 c2Block)

/-- A random stream whose first trial puts a slash mirror in the ray's row,
scoring 1. -/
def c2wStream : List Nat := [0, 0, 0] ++ [0, 1, 0, 0, 2, 0, 0, 3, 0, 0, 4, 0, 0]

/-- The concrete puzzle produced by `generate_puzzle "small" (some 0)` on
`c2wStream`. -/
def c2WitnessPuzzle : Puzzle :=
  (((generate_puzzle "small" (some 0) 100 c2wStream).getD none).getD
    { grid := [], start_row := 0, ascii := "", answer := { edge := "", position := .num 0 },
      path_length := 0, bounces := 0, teleports := 0 })

/-- A 3×3 grid with a degrading slash mirror boxed between a portal pair:
the ray crosses the mirror cell, is sent up through portal `1`, re-enters
the same cell from below, and crosses it again. -/
def c7Grid : List (List String) := [[".", "1", "."], [".", "~", "."], [".", "1", "."]]

/-- The same layout with a toggle mirror that starts ON. -/
def c6Grid : List (List String) := [[".", "1", "."], [".", "[/", "."], [".", "1", "."]]

/-! ## Helper lemmas -/

theorem assocLookup_insert_self {α : Type} (m : List ((Int × Int) × α)) (k : Int × Int) (v : α) :
    assocLookup (assocInsert m k v) k = some v := by
  induction m with
  | nil => simp [assocInsert, assocLookup]
  | cons hd tl ih =>
    by_cases h : hd.1 = k
    · simp [assocInsert, assocLookup, h]
    · simpa [assocInsert, assocLookup, h] using ih

theorem assocLookup_insert_ne {α : Type} (m : List ((Int × Int) × α)) (k q : Int × Int) (v : α)
    (h : q ≠ k) : assocLookup (assocInsert m k v) q = assocLookup m q := by
  have hkq : ¬(k = q) := fun hh => h hh.symm
  induction m with
  | nil => simp [assocInsert, assocLookup, hkq]
  | cons hd tl ih =>
    obtain ⟨k', v'⟩ := hd
    by_cases hk : k' = k
    · have hkq' : ¬(k' = q) := by rw [hk]; exact hkq
      simp [assocInsert, assocLookup, hk, hkq, hkq']
    · simp only [assocInsert, if_neg hk, assocLookup]
      by_cases hq : k' = q <;> simp [hq, ih]

theorem advance_fields (s : SimState) :
    (advance s).grid = s.grid ∧ (advance s).direction = s.direction ∧
      (advance s).bounces = s.bounces ∧ (advance s).teleports = s.teleports ∧
      (advance s).path = s.path ∧
      (advance s).degraded_mirrors = s.degraded_mirrors ∧
      (advance s).toggle_state = s.toggle_state ∧
      (advance s).flip_state = s.flip_state := by
  cases h : s.direction <;> simp [advance, h]


theorem process_cell_empty (s : SimState) (hc : cellAt s.grid s.row s.col = ".") :
    process_cell s = .normal s := by
  simp [process_cell, hc, dictMem, PORTAL_CELLS]

theorem process_cell_mirror (s : SimState) (c : String)
    (hc : cellAt s.grid s.row s.col = c) (hm : c = "/" ∨ c = "\\") :
    process_cell s = .normal { s with direction := get_next_direction s.direction c,
                                      bounces := s.bounces + 1 } := by
  rcases hm with h | h <;> subst h <;> simp [process_cell, hc]

theorem process_cell_degrading_hit (s : SimState) (c : String)
    (hc : cellAt s.grid s.row s.col = c) (hd : c = "~" ∨ c = "`")
    (hnb : (s.row, s.col) ∉ s.degraded_mirrors) :
    process_cell s = .normal { s with
      direction := get_next_direction s.direction ((dictGet DEGRADING_MIRRORS c).getD ""),
      bounces := s.bounces + 1,
      degraded_mirrors := s.degraded_mirrors ++ [(s.row, s.col)] } := by
  rcases hd with h | h <;> subst h <;> simp [process_cell, hc, dictMem, dictGet, hnb]

theorem process_cell_degrading_pass (s : SimState) (c : String)
    (hc : cellAt s.grid s.row s.col = c) (hd : c = "~" ∨ c = "`")
    (hb : (s.row, s.col) ∈ s.degraded_mirrors) :
    process_cell s = .normal s := by
  rcases hd with h | h <;> subst h <;> simp [process_cell, hc, dictMem, hb]

theorem process_cell_toggle (s : SimState) (c : String) (cur : Bool)
    (hc : cellAt s.grid s.row s.col = c)
    (ht : c = "[/" ∨ c = "[\\" ∨ c = "]/" ∨ c = "]\\")
    (hcur : (assocLookup s.toggle_state (s.row, s.col)).getD (dictMem TOGGLE_MIRRORS_ON c) = cur) :
    ∃ t, process_cell s = .normal t ∧
      t.direction = (if cur then
          get_next_direction s.direction
            (((dictGet TOGGLE_MIRRORS_ON c).orElse fun _ => dictGet TOGGLE_MIRRORS_OFF c).getD "")
        else s.direction) ∧
      t.bounces = (if cur then s.bounces + 1 else s.bounces) ∧
      assocLookup t.toggle_state (s.row, s.col) = some (!cur) ∧
      t.grid = s.grid ∧ t.row = s.row ∧ t.col = s.col ∧ t.path = s.path ∧
      t.teleports = s.teleports ∧ t.degraded_mirrors = s.degraded_mirrors := by
  subst hcur
  rcases ht with h | h | h | h <;> subst h <;>
    rcases hlook : assocLookup s.toggle_state (s.row, s.col) with _ | b <;>
    try cases b
  case inl.none =>
    refine ⟨{ s with
        direction := get_next_direction s.direction "/",
        bounces := s.bounces + 1,
        toggle_state := assocInsert (assocInsert s.toggle_state (s.row, s.col) true) (s.row, s.col) false },
      ?_, ?_, ?_, ?_, rfl, rfl, rfl, rfl, rfl, rfl⟩ <;>
      simp [process_cell, hc, dictMem, dictGet, Option.orElse, hlook, assocLookup_insert_self]
  case inl.some.false =>
    refine ⟨{ s with toggle_state := assocInsert s.toggle_state (s.row, s.col) true },
      ?_, ?_, ?_, ?_, rfl, rfl, rfl, rfl, rfl, rfl⟩ <;>
      simp [process_cell, hc, dictMem, dictGet, Option.orElse, hlook, assocLookup_insert_self]
  case inl.some.true =>
    refine ⟨{ s with
        direction := get_next_direction s.direction "/",
        bounces := s.bounces + 1,
        toggle_state := assocInsert s.toggle_state (s.row, s.col) false },
      ?_, ?_, ?_, ?_, rfl, rfl, rfl, rfl, rfl, rfl⟩ <;>
      simp [process_cell, hc, dictMem, dictGet, Option.orElse, hlook, assocLookup_insert_self]
  case inr.inl.none =>
    refine ⟨{ s with
        direction := get_next_direction s.direction "\\",
        bounces := s.bounces + 1,
        toggle_state := assocInsert (assocInsert s.toggle_state (s.row, s.col) true) (s.row, s.col) false },
      ?_, ?_, ?_, ?_, rfl, rfl, rfl, rfl, rfl, rfl⟩ <;>
      simp [process_cell, hc, dictMem, dictGet, Option.orElse, hlook, assocLookup_insert_self]
  case inr.inl.some.false =>
    refine ⟨{ s with toggle_state := assocInsert s.toggle_state (s.row, s.col) true },
      ?_, ?_, ?_, ?_, rfl, rfl, rfl, rfl, rfl, rfl⟩ <;>
      simp [process_cell, hc, dictMem, dictGet, Option.orElse, hlook, assocLookup_insert_self]
  case inr.inl.some.true =>
    refine ⟨{ s with
        direction := get_next_direction s.direction "\\",
        bounces := s.bounces + 1,
        toggle_state := assocInsert s.toggle_state (s.row, s.col) false },
      ?_, ?_, ?_, ?_, rfl, rfl, rfl, rfl, rfl, rfl⟩ <;>
      simp [process_cell, hc, dictMem, dictGet, Option.orElse, hlook, assocLookup_insert_self]
  case inr.inr.inl.none =>
    refine ⟨{ s with toggle_state := assocInsert (assocInsert s.toggle_state (s.row, s.col) false) (s.row, s.col) true },
      ?_, ?_, ?_, ?_, rfl, rfl, rfl, rfl, rfl, rfl⟩ <;>
      simp [process_cell, hc, dictMem, dictGet, Option.orElse, hlook, assocLookup_insert_self]
  case inr.inr.inl.some.false =>
    refine ⟨{ s with toggle_state := assocInsert s.toggle_state (s.row, s.col) true },
      ?_, ?_, ?_, ?_, rfl, rfl, rfl, rfl, rfl, rfl⟩ <;>
      simp [process_cell, hc, dictMem, dictGet, Option.orElse, hlook, assocLookup_insert_self]
  case inr.inr.inl.some.true =>
    refine ⟨{ s with
        direction := get_next_direction s.direction "/",
        bounces := s.bounces + 1,
        toggle_state := assocInsert s.toggle_state (s.row, s.col) false },
      ?_, ?_, ?_, ?_, rfl, rfl, rfl, rfl, rfl, rfl⟩ <;>
      simp [process_cell, hc, dictMem, dictGet, Option.orElse, hlook, assocLookup_insert_self]
  case inr.inr.inr.none =>
    refine ⟨{ s with toggle_state := assocInsert (assocInsert s.toggle_state (s.row, s.col) false) (s.row, s.col) true },
      ?_, ?_, ?_, ?_, rfl, rfl, rfl, rfl, rfl, rfl⟩ <;>
      simp [process_cell, hc, dictMem, dictGet, Option.orElse, hlook, assocLookup_insert_self]
  case inr.inr.inr.some.false =>
    refine ⟨{ s with toggle_state := assocInsert s.toggle_state (s.row, s.col) true },
      ?_, ?_, ?_, ?_, rfl, rfl, rfl, rfl, rfl, rfl⟩ <;>
      simp [process_cell, hc, dictMem, dictGet, Option.orElse, hlook, assocLookup_insert_self]
  case inr.inr.inr.some.true =>
    refine ⟨{ s with
        direction := get_next_direction s.direction "\\",
        bounces := s.bounces + 1,
        toggle_state := assocInsert s.toggle_state (s.row, s.col) false },
      ?_, ?_, ?_, ?_, rfl, rfl, rfl, rfl, rfl, rfl⟩ <;>
      simp [process_cell, hc, dictMem, dictGet, Option.orElse, hlook, assocLookup_insert_self]

theorem process_cell_portal_some (s : SimState) (c : String) (rc : Int × Int)
    (hc : cellAt s.grid s.row s.col = c) (hm : c ∈ PORTAL_CELLS)
    (hf : find_portal_exit s.grid c s.row s.col = some rc) :
    process_cell s =
      .moved (advance { s with teleports := s.teleports + 1, row := rc.1, col := rc.2 }) := by
  simp only [PORTAL_CELLS, List.mem_cons, List.not_mem_nil, or_false] at hm
  rcases hm with h | h | h <;> subst h <;>
    simp [process_cell, hc, dictMem, PORTAL_CELLS, hf]

theorem process_cell_portal_none (s : SimState) (c : String)
    (hc : cellAt s.grid s.row s.col = c) (hm : c ∈ PORTAL_CELLS)
    (hf : find_portal_exit s.grid c s.row s.col = none) :
    process_cell s = .normal s := by
  simp only [PORTAL_CELLS, List.mem_cons, List.not_mem_nil, or_false] at hm
  rcases hm with h | h | h <;> subst h <;>
    simp [process_cell, hc, dictMem, PORTAL_CELLS, hf]

theorem process_cell_normal_frame (s t : SimState) (h : process_cell s = .normal t) :
    t.grid = s.grid ∧ t.row = s.row ∧ t.col = s.col ∧ t.path = s.path ∧
      t.teleports = s.teleports ∧
      (t.degraded_mirrors = s.degraded_mirrors ∨
        t.degraded_mirrors = s.degraded_mirrors ++ [(s.row, s.col)]) ∧
      (∀ q, q ≠ (s.row, s.col) →
        assocLookup t.toggle_state q = assocLookup s.toggle_state q) := by
  simp only [process_cell] at h
  split at h
  · cases h; simp
  · split at h
    · split at h
      · cases h; simp
      · cases h; simp
    · split at h
      · split at h
        · cases h
          refine ⟨rfl, rfl, rfl, rfl, rfl, Or.inl rfl, fun q hq => ?_⟩
          rw [assocLookup_insert_ne _ _ _ _ hq]
          split
          · rfl
          · rw [assocLookup_insert_ne _ _ _ _ hq]
        · cases h
          refine ⟨rfl, rfl, rfl, rfl, rfl, Or.inl rfl, fun q hq => ?_⟩
          rw [assocLookup_insert_ne _ _ _ _ hq]
          split
          · rfl
          · rw [assocLookup_insert_ne _ _ _ _ hq]
      · split at h
        · cases h; simp
        · split at h
          · split at h
            · exact absurd h (by simp)
            · cases h; simp
          · cases h; simp

theorem simStep_cont_elim (s s' : SimState) (h : simStep s = .cont s') :
    inBounds s ∧
      ((∃ s2, process_cell { s with path := s.path ++ [⟨s.row, s.col, s.direction⟩] } = .moved s2 ∧
          s' = s2) ∨
        (∃ s2, process_cell { s with path := s.path ++ [⟨s.row, s.col, s.direction⟩] } = .normal s2 ∧
          s' = advance s2 ∧ (advance s2).path.length ≤ 1000)) := by
  simp only [simStep] at h
  split at h
  · exact absurd h (by simp)
  · split at h
    · exact absurd h (by simp)
    · split at h
      · exact absurd h (by simp)
      · split at h
        · exact absurd h (by simp)
        · rename_i h1 h2 h3 h4
          refine ⟨⟨by omega, by omega, by omega, by omega⟩, ?_⟩
          split at h
          · cases h
            exact Or.inl ⟨_, by assumption, rfl⟩
          · split at h
            · exact absurd h (by simp)
            · cases h
              exact Or.inr ⟨_, by assumption, rfl, by omega⟩

theorem simStep_exit_of_inBounds_normal (s s2 : SimState) (hin : inBounds s)
    (hp : process_cell { s with path := s.path ++ [⟨s.row, s.col, s.direction⟩] } = .normal s2)
    (hlen : (advance s2).path.length > 1000) :
    simStep s = .exit (make_result (advance s2) "right" (.num 1)) := by
  obtain ⟨h1, h2, h3, h4⟩ := hin
  simp only [simStep]
  rw [if_neg (by omega), if_neg (by omega), if_neg (by omega), if_neg (by omega), hp]
  show (if (advance s2).path.length > 1000 then
      StepOut.exit (make_result (advance s2) "right" (.num 1))
    else StepOut.cont (advance s2)) = _
  rw [if_pos hlen]

theorem simStep_cont_of_inBounds_normal (s s2 : SimState) (hin : inBounds s)
    (hp : process_cell { s with path := s.path ++ [⟨s.row, s.col, s.direction⟩] } = .normal s2)
    (hlen : (advance s2).path.length ≤ 1000) :
    simStep s = .cont (advance s2) := by
  obtain ⟨h1, h2, h3, h4⟩ := hin
  simp only [simStep]
  rw [if_neg (by omega), if_neg (by omega), if_neg (by omega), if_neg (by omega), hp]
  show (if (advance s2).path.length > 1000 then
      StepOut.exit (make_result (advance s2) "right" (.num 1))
    else StepOut.cont (advance s2)) = _
  rw [if_neg (by omega)]

theorem simStep_cont_of_inBounds_moved (s s2 : SimState) (hin : inBounds s)
    (hp : process_cell { s with path := s.path ++ [⟨s.row, s.col, s.direction⟩] } = .moved s2) :
    simStep s = .cont s2 := by
  obtain ⟨h1, h2, h3, h4⟩ := hin
  simp only [simStep]
  rw [if_neg (by omega), if_neg (by omega), if_neg (by omega), if_neg (by omega), hp]

theorem process_cell_moved_frame (s t : SimState) (h : process_cell s = .moved t) :
    t.grid = s.grid ∧ t.path = s.path ∧ t.direction = s.direction ∧
      t.bounces = s.bounces ∧ t.degraded_mirrors = s.degraded_mirrors ∧
      t.toggle_state = s.toggle_state ∧ t.flip_state = s.flip_state ∧
      (cellAt s.grid s.row s.col ∈ PORTAL_CELLS ∧
        (find_portal_exit s.grid (cellAt s.grid s.row s.col) s.row s.col).isSome) := by
  simp only [process_cell] at h
  split at h
  · exact absurd h (by simp)
  · split at h
    · split at h <;> exact absurd h (by simp)
    · split at h
      · split at h <;> split at h <;> exact absurd h (by simp)
      · split at h
        · exact absurd h (by simp)
        · split at h
          · rename_i hmem
            cases hfind : find_portal_exit s.grid (cellAt s.grid s.row s.col) s.row s.col with
            | none =>
              simp only [hfind] at h
              exact absurd h (by simp)
            | some rc =>
              simp only [hfind] at h
              cases h
              refine ⟨?_, ?_, ?_, ?_, ?_, ?_, ?_, hmem, by simp [hfind]⟩ <;>
                simp [(advance_fields _).1, (advance_fields _).2.1, (advance_fields _).2.2.1,
                  (advance_fields _).2.2.2.1, (advance_fields _).2.2.2.2.1,
                  (advance_fields _).2.2.2.2.2.1, (advance_fields _).2.2.2.2.2.2.1,
                  (advance_fields _).2.2.2.2.2.2.2]
          · exact absurd h (by simp)


theorem simStep_cont_facts (s s' : SimState) (h : simStep s = .cont s') :
    inBounds s ∧ s'.grid = s.grid ∧
      (s'.degraded_mirrors = s.degraded_mirrors ∨
        s'.degraded_mirrors = s.degraded_mirrors ++ [(s.row, s.col)]) ∧
      (∀ q, q ≠ (s.row, s.col) →
        assocLookup s'.toggle_state q = assocLookup s.toggle_state q) := by
  obtain ⟨hin, hcase⟩ := simStep_cont_elim s s' h
  rcases hcase with ⟨s2, hp, heq⟩ | ⟨s2, hp, heq, hlen⟩ <;> subst heq
  · have hf := process_cell_moved_frame _ s' hp
    refine ⟨hin, hf.1, Or.inl hf.2.2.2.2.1, fun q hq => hf.2.2.2.2.2.1 ▸ rfl⟩
  · have hf := process_cell_normal_frame _ s2 hp
    have ha := advance_fields s2
    refine ⟨hin, by rw [ha.1, hf.1], ?_, fun q hq => ?_⟩
    · rcases hf.2.2.2.2.2.1 with h1 | h1
      · exact Or.inl (by rw [ha.2.2.2.2.2.1, h1])
      · exact Or.inr (by rw [ha.2.2.2.2.2.1, h1])
    · rw [ha.2.2.2.2.2.2.1, hf.2.2.2.2.2.2 q hq]

theorem traj_some_of_succ (s : SimState) (n : Nat) (s' : SimState)
    (h : traj s (n + 1) = some s') :
    ∃ sm, traj s n = some sm ∧ simStep sm = .cont s' := by
  simp only [traj] at h
  cases htr : traj s n with
  | none =>
    simp only [htr] at h
    exact absurd h (by simp)
  | some sm =>
    simp only [htr] at h
    cases hst : simStep sm with
    | exit r =>
      simp only [hst] at h
      exact absurd h (by simp)
    | cont s2 =>
      simp only [hst] at h
      cases h
      exact ⟨sm, rfl, hst⟩

theorem traj_grid (s : SimState) : ∀ n s', traj s n = some s' → s'.grid = s.grid := by
  intro n
  induction n with
  | zero =>
    intro s' h
    simp only [traj] at h
    cases h
    rfl
  | succ n ih =>
    intro s' h
    obtain ⟨sm, hm, hstep⟩ := traj_some_of_succ s n s' h
    rw [(simStep_cont_facts sm s' hstep).2.1, ih sm hm]

theorem posAt_of_traj (s0 : SimState) (n : Nat) (sm : SimState) (h : traj s0 n = some sm) :
    posAt s0 n = some (sm.row, sm.col) := by
  simp [posAt, h]

theorem visitCountBefore_succ (s0 : SimState) (pos : Int × Int) (n : Nat) :
    visitCountBefore s0 pos (n + 1) =
      visitCountBefore s0 pos n + (if posAt s0 n = some pos then 1 else 0) := by
  unfold visitCountBefore
  rw [List.range_succ, List.filter_append, List.length_append]
  congr 1
  by_cases hp : posAt s0 n = some pos <;> simp [hp]

theorem parity_flip (v : Nat) : decide ((v + 1) % 2 = 1) = !decide (v % 2 = 1) := by
  rcases Nat.mod_two_eq_zero_or_one v with hv | hv <;> simp [Nat.add_mod, hv]

theorem degraded_iff_visited (grid : List (List String)) (start_row : Int) (d : Direction)
    (pos : Int × Int) (c : String)
    (hcell : cellAt grid pos.1 pos.2 = c) (hd : c = "~" ∨ c = "`") :
    ∀ n s, traj (init_state grid start_row d) n = some s →
      (pos ∈ s.degraded_mirrors ↔ 0 < visitCountBefore (init_state grid start_row d) pos n) := by
  intro n
  induction n with
  | zero =>
    intro s h
    simp only [traj] at h
    cases h
    simp [init_state, visitCountBefore]
  | succ n ih =>
    intro s h
    obtain ⟨sm, hm, hstep⟩ := traj_some_of_succ _ n s h
    have hfacts := simStep_cont_facts sm s hstep
    have hposAt := posAt_of_traj _ n sm hm
    rw [visitCountBefore_succ, hposAt]
    by_cases hvis : (sm.row, sm.col) = pos
    · rw [if_pos (by rw [hvis])]
      constructor
      · intro _
        omega
      · intro _
        by_cases hin : pos ∈ sm.degraded_mirrors
        · rcases hfacts.2.2.1 with he | he <;> rw [he]
          · exact hin
          · exact List.mem_append_left _ hin
        · have hg : sm.grid = grid := traj_grid _ n sm hm
          obtain ⟨hinB, hcase⟩ := simStep_cont_elim sm s hstep
          have hrc : sm.row = pos.1 ∧ sm.col = pos.2 := by rw [← hvis]; exact ⟨rfl, rfl⟩
          have hc1 : cellAt sm.grid sm.row sm.col = c := by
            rw [hg, hrc.1, hrc.2, hcell]
          rcases hcase with ⟨s2, hp, heq⟩ | ⟨s2, hp, heq, hlen⟩
          · have hport := (process_cell_moved_frame _ _ hp).2.2.2.2.2.2.2.1
            rcases hd with hh | hh <;> subst hh <;>
              · simp only [show ({ sm with
                    path := sm.path ++ [⟨sm.row, sm.col, sm.direction⟩] } : SimState).grid =
                    sm.grid from rfl] at hport
                rw [hc1] at hport
                simp [PORTAL_CELLS] at hport
          · have hpc := process_cell_degrading_hit
              { sm with path := sm.path ++ [⟨sm.row, sm.col, sm.direction⟩] } c
              (by simpa using hc1) hd (by simpa [hvis] using hin)
            rw [hpc] at hp
            cases hp
            subst heq
            rw [(advance_fields _).2.2.2.2.2.1]
            simp only [show ∀ u : SimState, ({ u with
              direction := get_next_direction u.direction ((dictGet DEGRADING_MIRRORS c).getD ""),
              bounces := u.bounces + 1,
              degraded_mirrors := u.degraded_mirrors ++ [(u.row, u.col)] } : SimState).degraded_mirrors =
                u.degraded_mirrors ++ [(u.row, u.col)] from fun u => rfl]
            refine List.mem_append_right _ ?_
            simp [hvis]
    · have hne : ¬(some (sm.row, sm.col) = some pos) := by
        intro hh
        injection hh with hh2
        exact hvis hh2
      rw [if_neg hne, Nat.add_zero, ← ih sm hm]
      rcases hfacts.2.2.1 with he | he <;> rw [he]
      · constructor
        · intro hmem
          rcases List.mem_append.mp hmem with h1 | h1
          · exact h1
          · simp only [List.mem_singleton] at h1
            exact absurd h1.symm hvis
        · exact fun hmem => List.mem_append_left _ hmem

theorem toggle_lookup_visits (grid : List (List String)) (start_row : Int) (d : Direction)
    (pos : Int × Int) (c : String)
    (hcell : cellAt grid pos.1 pos.2 = c)
    (ht : c = "[/" ∨ c = "[\\" ∨ c = "]/" ∨ c = "]\\") :
    ∀ n s, traj (init_state grid start_row d) n = some s →
      assocLookup s.toggle_state pos =
        (if visitCountBefore (init_state grid start_row d) pos n = 0 then none
         else some (xor (dictMem TOGGLE_MIRRORS_ON c)
           (decide (visitCountBefore (init_state grid start_row d) pos n % 2 = 1)))) := by
  intro n
  induction n with
  | zero =>
    intro s h
    simp only [traj] at h
    cases h
    simp [init_state, assocLookup, visitCountBefore]
  | succ n ih =>
    intro s h
    obtain ⟨sm, hm, hstep⟩ := traj_some_of_succ _ n s h
    have hfacts := simStep_cont_facts sm s hstep
    have hposAt := posAt_of_traj _ n sm hm
    rw [visitCountBefore_succ, hposAt]
    by_cases hvis : (sm.row, sm.col) = pos
    · have hone : (if some (sm.row, sm.col) = some pos then 1 else 0) = 1 :=
        if_pos (by rw [hvis])
      rw [hone,
        if_neg (by omega :
          ¬(visitCountBefore (init_state grid start_row d) pos n + 1 = 0))]
      have hg : sm.grid = grid := traj_grid _ n sm hm
      have hrc : sm.row = pos.1 ∧ sm.col = pos.2 := by rw [← hvis]; exact ⟨rfl, rfl⟩
      have hc1 : cellAt sm.grid sm.row sm.col = c := by rw [hg, hrc.1, hrc.2, hcell]
      obtain ⟨hinB, hcase⟩ := simStep_cont_elim sm s hstep
      have hcur : (assocLookup sm.toggle_state pos).getD (dictMem TOGGLE_MIRRORS_ON c) =
          xor (dictMem TOGGLE_MIRRORS_ON c)
            (decide (visitCountBefore (init_state grid start_row d) pos n % 2 = 1)) := by
        rw [ih sm hm]
        by_cases hz : visitCountBefore (init_state grid start_row d) pos n = 0
        · simp [hz]
        · rw [if_neg hz]
          simp
      rcases hcase with ⟨s2, hp, heq⟩ | ⟨s2, hp, heq, hlen⟩
      · have hport := (process_cell_moved_frame _ _ hp).2.2.2.2.2.2.2.1
        rcases ht with hh | hh | hh | hh <;> subst hh <;>
          · simp only [show ({ sm with
                path := sm.path ++ [⟨sm.row, sm.col, sm.direction⟩] } : SimState).grid =
                sm.grid from rfl] at hport
            rw [hc1] at hport
            simp [PORTAL_CELLS] at hport
      · obtain ⟨t, hpc, hdir, hbn, hlk, hgr, hrow, hcol, hpath, htel, hdeg⟩ :=
          process_cell_toggle
            { sm with path := sm.path ++ [⟨sm.row, sm.col, sm.direction⟩] } c
            (xor (dictMem TOGGLE_MIRRORS_ON c)
              (decide (visitCountBefore (init_state grid start_row d) pos n % 2 = 1)))
            (by simpa using hc1) ht (by simpa [hvis] using hcur)
        rw [hpc] at hp
        cases hp
        subst heq
        rw [(advance_fields _).2.2.2.2.2.2.1]
        have hlk2 : assocLookup s2.toggle_state pos = some
            (!xor (dictMem TOGGLE_MIRRORS_ON c)
              (decide (visitCountBefore (init_state grid start_row d) pos n % 2 = 1))) := by
          have h2 : ((sm.row : Int), (sm.col : Int)) = pos := hvis
          simpa [h2] using hlk
        rw [hlk2, parity_flip]
        cases dictMem TOGGLE_MIRRORS_ON c <;>
          cases decide (visitCountBefore (init_state grid start_row d) pos n % 2 = 1) <;> rfl
    · have hne : ¬(some (sm.row, sm.col) = some pos) := by
        intro hh
        injection hh with hh2
        exact hvis hh2
      rw [if_neg hne, Nat.add_zero, ← ih sm hm]
      exact hfacts.2.2.2 pos (fun hh => hvis hh.symm)

theorem cellAt_all_empty (grid : List (List String)) (cols : Nat)
    (hrows : ∀ row ∈ grid, row.length = cols)
    (hempty : ∀ row ∈ grid, ∀ cell ∈ row, cell = ".")
    (r c : Int) (h0r : 0 ≤ r) (hr : r < (grid.length : Int))
    (h0c : 0 ≤ c) (hc : c < (cols : Int)) :
    cellAt grid r c = "." := by
  have hrn : r.toNat < grid.length := by omega
  have hrow : grid.getD r.toNat [] = grid[r.toNat] := List.getD_eq_getElem grid [] hrn
  have hmem : grid[r.toNat] ∈ grid := List.getElem_mem hrn
  have hcn : c.toNat < grid[r.toNat].length := by
    rw [hrows _ hmem]
    omega
  unfold cellAt
  rw [hrow, List.getD_eq_getElem _ "." hcn]
  exact hempty _ hmem _ (List.getElem_mem hcn)

theorem simLoop_empty_grid (grid : List (List String)) (cols : Nat)
    (hrows : ∀ row ∈ grid, row.length = cols)
    (hempty : ∀ row ∈ grid, ∀ cell ∈ row, cell = ".")
    (hg0 : (grid.getD 0 []).length = cols)
    (hcols1000 : cols ≤ 1000) :
    ∀ k fuel (s : SimState) (c : Nat),
      s.grid = grid → 0 ≤ s.row → s.row < (grid.length : Int) → s.direction = .right →
      s.col = (c : Int) → c + k = cols → s.path.length = c → k < fuel →
      ∃ res, simLoop fuel s = some res ∧
        res.exit = ⟨"right", .num (s.row + 1)⟩ ∧
        res.bounces = s.bounces ∧ res.teleports = s.teleports := by
  intro k
  induction k with
  | zero =>
    intro fuel s c hg h0 hr hd hc hck hp hf
    cases fuel with
    | zero => omega
    | succ fuel =>
      have hexit : simStep s = .exit (make_result s "right" (.num (s.row + 1))) := by
        simp only [simStep]
        rw [if_neg (by omega), if_neg (by rw [hg]; omega), if_neg (by omega),
          if_pos (by rw [hg, hg0]; omega)]
      refine ⟨make_result s "right" (.num (s.row + 1)), ?_, rfl, rfl, rfl⟩
      simp only [simLoop, hexit]
  | succ k ih =>
    intro fuel s c hg h0 hr hd hc hck hp hf
    cases fuel with
    | zero => omega
    | succ fuel =>
      have hcc : c < cols := by omega
      have hcell : cellAt s.grid s.row s.col = "." := by
        rw [hg]
        exact cellAt_all_empty grid cols hrows hempty s.row s.col h0 hr (by omega) (by omega)
      have hpc := process_cell_empty
        { s with path := s.path ++ [⟨s.row, s.col, s.direction⟩] } (by simpa using hcell)
      have hstep : simStep s =
          .cont (advance { s with path := s.path ++ [⟨s.row, s.col, s.direction⟩] }) := by
        refine simStep_cont_of_inBounds_normal s _ ⟨h0, by rw [hg]; exact hr, by omega,
          by rw [hg, hg0]; omega⟩ hpc ?_
        rw [(advance_fields _).2.2.2.2.1]
        simp only [List.length_append, List.length_cons, List.length_nil, hp]
        omega
      rw [show simLoop (fuel + 1) s = (match simStep s with
        | .exit r => some r
        | .cont s' => simLoop fuel s') from rfl, hstep]
      have hadv := advance_fields { s with path := s.path ++ [⟨s.row, s.col, s.direction⟩] }
      have hdir2 : (advance { s with
          path := s.path ++ [⟨s.row, s.col, s.direction⟩] }).direction = .right := by
        rw [hadv.2.1, hd]
      have hcol2 : (advance { s with
          path := s.path ++ [⟨s.row, s.col, s.direction⟩] }).col = ((c + 1 : Nat) : Int) := by
        have : (advance { s with path := s.path ++ [⟨s.row, s.col, s.direction⟩] }).col
            = s.col + 1 := by
          simp only [advance, hd]
        rw [this, hc]
        push_cast
        ring
      have hrow2 : (advance { s with
          path := s.path ++ [⟨s.row, s.col, s.direction⟩] }).row = s.row := by
        simp only [advance, hd]
      obtain ⟨res, hres, hre, hrb, hrt⟩ := ih fuel
        (advance { s with path := s.path ++ [⟨s.row, s.col, s.direction⟩] }) (c + 1)
        (by rw [hadv.1]; exact hg) (by rw [hrow2]; exact h0) (by rw [hrow2]; exact hr)
        hdir2 hcol2 (by omega)
        (by rw [hadv.2.2.2.2.1]
            simp only [List.length_append, List.length_cons, List.length_nil, hp])
        (by omega)
      refine ⟨res, hres, ?_, ?_, ?_⟩
      · rw [hre, hrow2]
      · rw [hrb, hadv.2.2.1]
      · rw [hrt, hadv.2.2.2.1]

theorem simLoop_empty_grid_runaway (grid : List (List String)) (cols : Nat)
    (hrows : ∀ row ∈ grid, row.length = cols)
    (hempty : ∀ row ∈ grid, ∀ cell ∈ row, cell = ".")
    (hg0 : (grid.getD 0 []).length = cols)
    (hcols : 1000 < cols) :
    ∀ k fuel (s : SimState) (c : Nat),
      s.grid = grid → 0 ≤ s.row → s.row < (grid.length : Int) → s.direction = .right →
      s.col = (c : Int) → c + k = 1000 → s.path.length = c → k < fuel →
      ∃ res, simLoop fuel s = some res ∧
        res.exit = ⟨"right", .num 1⟩ ∧ res.path.length = 1001 ∧
        res.bounces = s.bounces ∧ res.teleports = s.teleports := by
  intro k
  induction k with
  | zero =>
    intro fuel s c hg h0 hr hd hc hck hp hf
    cases fuel with
    | zero => omega
    | succ fuel =>
      have hcc : c < cols := by omega
      have hcell : cellAt s.grid s.row s.col = "." := by
        rw [hg]
        exact cellAt_all_empty grid cols hrows hempty s.row s.col h0 hr (by omega) (by omega)
      have hpc := process_cell_empty
        { s with path := s.path ++ [⟨s.row, s.col, s.direction⟩] } (by simpa using hcell)
      have hlen : (advance { s with
          path := s.path ++ [⟨s.row, s.col, s.direction⟩] }).path.length > 1000 := by
        rw [(advance_fields _).2.2.2.2.1]
        simp only [List.length_append, List.length_cons, List.length_nil, hp]
        omega
      have hstep := simStep_exit_of_inBounds_normal s _ ⟨h0, by rw [hg]; exact hr, by omega,
        by rw [hg, hg0]; omega⟩ hpc hlen
      refine ⟨make_result (advance { s with
        path := s.path ++ [⟨s.row, s.col, s.direction⟩] }) "right" (.num 1), ?_, rfl, ?_, ?_, ?_⟩
      · simp only [simLoop, hstep]
      · simp only [make_result]
        rw [(advance_fields _).2.2.2.2.1]
        simp only [List.length_append, List.length_cons, List.length_nil, hp]
        omega
      · simp only [make_result]
        rw [(advance_fields _).2.2.1]
      · simp only [make_result]
        rw [(advance_fields _).2.2.2.1]
  | succ k ih =>
    intro fuel s c hg h0 hr hd hc hck hp hf
    cases fuel with
    | zero => omega
    | succ fuel =>
      have hcc : c < cols := by omega
      have hcell : cellAt s.grid s.row s.col = "." := by
        rw [hg]
        exact cellAt_all_empty grid cols hrows hempty s.row s.col h0 hr (by omega) (by omega)
      have hpc := process_cell_empty
        { s with path := s.path ++ [⟨s.row, s.col, s.direction⟩] } (by simpa using hcell)
      have hstep : simStep s =
          .cont (advance { s with path := s.path ++ [⟨s.row, s.col, s.direction⟩] }) := by
        refine simStep_cont_of_inBounds_normal s _ ⟨h0, by rw [hg]; exact hr, by omega,
          by rw [hg, hg0]; omega⟩ hpc ?_
        rw [(advance_fields _).2.2.2.2.1]
        simp only [List.length_append, List.length_cons, List.length_nil, hp]
        omega
      rw [show simLoop (fuel + 1) s = (match simStep s with
        | .exit r => some r
        | .cont s' => simLoop fuel s') from rfl, hstep]
      have hadv := advance_fields { s with path := s.path ++ [⟨s.row, s.col, s.direction⟩] }
      have hcol2 : (advance { s with
          path := s.path ++ [⟨s.row, s.col, s.direction⟩] }).col = ((c + 1 : Nat) : Int) := by
        have : (advance { s with path := s.path ++ [⟨s.row, s.col, s.direction⟩] }).col
            = s.col + 1 := by
          simp only [advance, hd]
        rw [this, hc]
        push_cast
        ring
      have hrow2 : (advance { s with
          path := s.path ++ [⟨s.row, s.col, s.direction⟩] }).row = s.row := by
        simp only [advance, hd]
      obtain ⟨res, hres, hre, hrp, hrb, hrt⟩ := ih fuel
        (advance { s with path := s.path ++ [⟨s.row, s.col, s.direction⟩] }) (c + 1)
        (by rw [hadv.1]; exact hg) (by rw [hrow2]; exact h0) (by rw [hrow2]; exact hr)
        (by rw [hadv.2.1]; exact hd) hcol2 (by omega)
        (by rw [hadv.2.2.2.2.1]
            simp only [List.length_append, List.length_cons, List.length_nil, hp])
        (by omega)
      refine ⟨res, hres, hre, hrp, ?_, ?_⟩
      · rw [hrb, hadv.2.2.1]
      · rw [hrt, hadv.2.2.2.1]

theorem count_set_of_dot (l : List String) (v ch : String) (hch : ch ≠ ".") :
    ∀ c, ∀ hc : c < l.length, l[c] = "." →
      (l.set c v).count ch = l.count ch + (if v = ch then 1 else 0) := by
  induction l with
  | nil => intro c hc; simp at hc
  | cons hd tl ih =>
    intro c hc hdot
    cases c with
    | zero =>
      simp only [List.getElem_cons_zero] at hdot
      subst hdot
      simp only [List.set_cons_zero, List.count_cons]
      have : ¬(("." : String) == ch) = true := by
        simp only [beq_iff_eq]
        exact fun hh => hch hh.symm
      rw [if_neg this]
      by_cases hv : v = ch
      · rw [if_pos (by simp [hv]), if_pos hv]
      · rw [if_neg (by simp [hv]), if_neg hv]
    | succ c =>
      simp only [List.length_cons, Nat.succ_lt_succ_iff] at hc
      simp only [List.getElem_cons_succ] at hdot
      simp only [List.set_cons_succ, List.count_cons]
      rw [ih c hc hdot]
      omega

theorem countGrid_setCell_dot (v ch : String) (hch : ch ≠ ".") :
    ∀ (grid : List (List String)) (r c : Nat), r < grid.length →
      ∀ hc : c < (grid.getD r []).length, (grid.getD r [])[c] = "." →
      countGrid (setCell grid r c v) ch = countGrid grid ch + (if v = ch then 1 else 0) := by
  intro grid
  induction grid with
  | nil => intro r c hr; simp at hr
  | cons hd tl ih =>
    intro r c hr hc hdot
    cases r with
    | zero =>
      simp only [List.getD_cons_zero] at hc hdot
      simp only [setCell, List.getD_cons_zero, List.set_cons_zero, countGrid, List.map_cons,
        List.sum_cons]
      rw [count_set_of_dot hd v ch hch c hc hdot]
      omega
    | succ r =>
      simp only [List.length_cons, Nat.succ_lt_succ_iff] at hr
      simp only [List.getD_cons_succ] at hc hdot
      simp only [setCell, List.getD_cons_succ, List.set_cons_succ, countGrid, List.map_cons,
        List.sum_cons]
      have := ih r c hr hc hdot
      simp only [setCell, countGrid] at this
      omega

theorem setCell_dims (grid : List (List String)) (r c : Nat) (v : String) (cols : Nat)
    (hr : r < grid.length) (hall : ∀ row ∈ grid, row.length = cols) :
    (setCell grid r c v).length = grid.length ∧
      ∀ row ∈ setCell grid r c v, row.length = cols := by
  refine ⟨List.length_set grid r _, fun row hrow => ?_⟩
  rcases List.mem_or_eq_of_mem_set hrow with h1 | h1
  · exact hall _ h1
  · subst h1
    rw [List.length_set, List.getD_eq_getElem grid [] hr]
    exact hall _ (List.getElem_mem hr)

theorem chooseNormal_glyphs (st : List Nat) (g : String) (st' : List Nat)
    (h : chooseNormal st = some (g, st')) : g = "/" ∨ g = "\\" := by
  cases st with
  | nil => simp [chooseNormal, coin] at h
  | cons v vs =>
    simp only [chooseNormal, coin] at h
    split at h <;> · cases h; simp

theorem chooseDegrading_glyphs (st : List Nat) (g : String) (st' : List Nat)
    (h : chooseDegrading st = some (g, st')) : g = "~" ∨ g = "`" := by
  cases st with
  | nil => simp [chooseDegrading, coin] at h
  | cons v vs =>
    simp only [chooseDegrading, coin] at h
    split at h <;> · cases h; simp

theorem chooseToggle_glyphs (st : List Nat) (g : String) (st' : List Nat)
    (h : chooseToggle st = some (g, st')) : g = "[/" ∨ g = "[\\" ∨ g = "]/" ∨ g = "]\\" := by
  cases st with
  | nil => simp [chooseToggle, coin] at h
  | cons v vs =>
    cases vs with
    | nil => simp [chooseToggle, coin] at h
    | cons w ws =>
      simp only [chooseToggle, coin] at h
      split at h <;> split at h <;> · cases h; simp

theorem chooseFlipping_glyphs (st : List Nat) (g : String) (st' : List Nat)
    (h : chooseFlipping st = some (g, st')) : g = "\x7b/" ∨ g = "\x7b\\" := by
  cases st with
  | nil => simp [chooseFlipping, coin] at h
  | cons v vs =>
    simp only [chooseFlipping, coin] at h
    split at h <;> · cases h; simp

theorem place_elements_count (rows cols : Nat) (hrows : 1 ≤ rows) (hcols : 1 ≤ cols)
    (choose : List Nat → Option (String × List Nat)) (ch : String) (hch : ch ≠ ".")
    (hchoose : ∀ st g st', choose st = some (g, st') → g ≠ ch) :
    ∀ fuel need (grid : List (List String)) stream g' s',
      grid.length = rows → (∀ row ∈ grid, row.length = cols) →
      place_elements rows cols choose fuel grid need stream = some (g', s') →
      countGrid g' ch = countGrid grid ch ∧ g'.length = rows ∧
        ∀ row ∈ g', row.length = cols := by
  intro fuel
  induction fuel with
  | zero =>
    intro need grid stream g' s' hlen hall h
    cases need with
    | zero =>
      simp only [place_elements] at h
      cases h
      exact ⟨rfl, hlen, hall⟩
    | succ need => simp [place_elements] at h
  | succ fuel ih =>
    intro need grid stream g' s' hlen hall h
    cases need with
    | zero =>
      simp only [place_elements] at h
      cases h
      exact ⟨rfl, hlen, hall⟩
    | succ need =>
      cases stream with
      | nil => simp [place_elements, randint] at h
      | cons v vs =>
        cases vs with
        | nil => simp [place_elements, randint] at h
        | cons w ws =>
          simp only [place_elements, randint] at h
          set r : Nat := 0 + v % (rows - 1 - 0 + 1) with hrdef
          set c : Nat := 0 + w % (cols - 1 - 0 + 1) with hcdef
          have hrlt : r < rows := by
            rw [hrdef]
            have h1 : rows - 1 - 0 + 1 = rows := by omega
            rw [h1, Nat.zero_add]
            exact Nat.mod_lt v (by omega)
          have hclt : c < cols := by
            rw [hcdef]
            have h1 : cols - 1 - 0 + 1 = cols := by omega
            rw [h1, Nat.zero_add]
            exact Nat.mod_lt w (by omega)
          split at h
          · rename_i hdot
            cases hch2 : choose ws with
            | none => rw [hch2] at h; exact absurd h (by simp)
            | some gs =>
              obtain ⟨glyph, s3⟩ := gs
              rw [hch2] at h
              have hglyph := hchoose _ _ _ hch2
              have hrl : r < grid.length := by omega
              have hrowlist := List.getD_eq_getElem grid [] hrl
              have hlc : c < (grid.getD r []).length := by
                rw [hrowlist, hall _ (List.getElem_mem hrl)]
                exact hclt
              have hdot2 : (grid.getD r []).getD c "." = "." := by
                have hcell : cellAt grid r c = (grid.getD r []).getD c "." := by
                  simp [cellAt]
                rw [← hcell]
                exact hdot
              have hdotE : (grid.getD r [])[c] = "." := by
                rw [← List.getD_eq_getElem _ "." hlc]
                exact hdot2
              have hcnt := countGrid_setCell_dot glyph ch hch grid r c hrl hlc hdotE
              have hdims := setCell_dims grid r c glyph cols hrl hall
              obtain ⟨hc1, hc2, hc3⟩ := ih need (setCell grid r c glyph) s3 g' s'
                (by rw [hdims.1, hlen]) hdims.2 h
              refine ⟨?_, hc2, hc3⟩
              rw [hc1, hcnt, if_neg hglyph]
              omega
          · exact ih (need + 1) grid ws g' s' hlen hall h

theorem place_elements_count_const (rows cols : Nat) (hrows : 1 ≤ rows) (hcols : 1 ≤ cols)
    (choose : List Nat → Option (String × List Nat)) (ch : String) (hch : ch ≠ ".")
    (hchoose : ∀ st g st', choose st = some (g, st') → g = ch) :
    ∀ fuel need (grid : List (List String)) stream g' s',
      grid.length = rows → (∀ row ∈ grid, row.length = cols) →
      place_elements rows cols choose fuel grid need stream = some (g', s') →
      countGrid g' ch = countGrid grid ch + need ∧ g'.length = rows ∧
        ∀ row ∈ g', row.length = cols := by
  intro fuel
  induction fuel with
  | zero =>
    intro need grid stream g' s' hlen hall h
    cases need with
    | zero =>
      simp only [place_elements] at h
      cases h
      exact ⟨by omega, hlen, hall⟩
    | succ need => simp [place_elements] at h
  | succ fuel ih =>
    intro need grid stream g' s' hlen hall h
    cases need with
    | zero =>
      simp only [place_elements] at h
      cases h
      exact ⟨by omega, hlen, hall⟩
    | succ need =>
      cases stream with
      | nil => simp [place_elements, randint] at h
      | cons v vs =>
        cases vs with
        | nil => simp [place_elements, randint] at h
        | cons w ws =>
          simp only [place_elements, randint] at h
          set r : Nat := 0 + v % (rows - 1 - 0 + 1) with hrdef
          set c : Nat := 0 + w % (cols - 1 - 0 + 1) with hcdef
          have hrlt : r < rows := by
            rw [hrdef]
            have h1 : rows - 1 - 0 + 1 = rows := by omega
            rw [h1, Nat.zero_add]
            exact Nat.mod_lt v (by omega)
          have hclt : c < cols := by
            rw [hcdef]
            have h1 : cols - 1 - 0 + 1 = cols := by omega
            rw [h1, Nat.zero_add]
            exact Nat.mod_lt w (by omega)
          split at h
          · rename_i hdot
            cases hch2 : choose ws with
            | none => rw [hch2] at h; exact absurd h (by simp)
            | some gs =>
              obtain ⟨glyph, s3⟩ := gs
              rw [hch2] at h
              have hglyph := hchoose _ _ _ hch2
              have hrl : r < grid.length := by omega
              have hrowlist := List.getD_eq_getElem grid [] hrl
              have hlc : c < (grid.getD r []).length := by
                rw [hrowlist, hall _ (List.getElem_mem hrl)]
                exact hclt
              have hdot2 : (grid.getD r []).getD c "." = "." := by
                have hcell : cellAt grid r c = (grid.getD r []).getD c "." := by
                  simp [cellAt]
                rw [← hcell]
                exact hdot
              have hdotE : (grid.getD r [])[c] = "." := by
                rw [← List.getD_eq_getElem _ "." hlc]
                exact hdot2
              have hcnt := countGrid_setCell_dot glyph ch hch grid r c hrl hlc hdotE
              have hdims := setCell_dims grid r c glyph cols hrl hall
              obtain ⟨hc1, hc2, hc3⟩ := ih need (setCell grid r c glyph) s3 g' s'
                (by rw [hdims.1, hlen]) hdims.2 h
              refine ⟨?_, hc2, hc3⟩
              rw [hc1, hcnt, if_pos hglyph]
              omega
          · exact ih (need + 1) grid ws g' s' hlen hall h

theorem portal_glyph_ne_dot (p : Nat) (hp : p < 3) : PORTAL_CELLS.getD p "" ≠ "." := by
  interval_cases p <;> simp [PORTAL_CELLS]

theorem portal_glyph_ne (a b : Nat) (ha : a < 3) (hb : b < 3) (hne : a ≠ b) :
    PORTAL_CELLS.getD a "" ≠ PORTAL_CELLS.getD b "" := by
  interval_cases a <;> interval_cases b <;> simp_all [PORTAL_CELLS]

theorem choosePortal_glyph (q : Nat) : ∀ st g st',
    choosePortal q st = some (g, st') → g = PORTAL_CELLS.getD q "" := by
  intro st g st' h
  simp only [choosePortal] at h
  cases h
  rfl

theorem place_portals_count (rows cols : Nat) (hrows : 1 ≤ rows) (hcols : 1 ≤ cols)
    (p : Nat) (hp3 : p < 3) :
    ∀ (ps : List Nat) (grid : List (List String)) stream g' s',
      grid.length = rows → (∀ row ∈ grid, row.length = cols) →
      (∀ q ∈ ps, q < 3) → ps.Nodup →
      place_portals rows cols ps grid stream = some (g', s') →
      (p ∈ ps → countGrid g' (PORTAL_CELLS.getD p "") =
        countGrid grid (PORTAL_CELLS.getD p "") + 2) ∧
      (p ∉ ps → countGrid g' (PORTAL_CELLS.getD p "") =
        countGrid grid (PORTAL_CELLS.getD p "")) := by
  intro ps
  induction ps with
  | nil =>
    intro grid stream g' s' hlen hall hq hnd h
    simp only [place_portals] at h
    cases h
    exact ⟨fun hmem => absurd hmem (List.not_mem_nil p), fun _ => rfl⟩
  | cons q rest ih =>
    intro grid stream g' s' hlen hall hq hnd h
    simp only [place_portals] at h
    cases hpe : place_elements rows cols (choosePortal q) stream.length grid 2 stream with
    | none => rw [hpe] at h; exact absurd h (by simp)
    | some gs =>
      obtain ⟨g1, s1⟩ := gs
      rw [hpe] at h
      have hq3 : q < 3 := hq q (List.mem_cons_self q rest)
      have hnd2 := (List.nodup_cons.mp hnd).2
      have hqrest := (List.nodup_cons.mp hnd).1
      by_cases hqp : q = p
      · subst hqp
        have hcc := place_elements_count_const rows cols hrows hcols (choosePortal q)
          (PORTAL_CELLS.getD q "") (portal_glyph_ne_dot q hq3) (choosePortal_glyph q)
          stream.length 2 grid stream g1 s1 hlen hall hpe
        have hrest := ih g1 s1 g' s' (by rw [hcc.2.1]) hcc.2.2
          (fun x hx => hq x (List.mem_cons_of_mem q hx)) hnd2 h
        refine ⟨fun _ => ?_, fun hnm => absurd (List.mem_cons_self q rest) hnm⟩
        rw [hrest.2 hqrest, hcc.1]
      · have hcc := place_elements_count rows cols hrows hcols (choosePortal q)
          (PORTAL_CELLS.getD p "") (portal_glyph_ne_dot p hp3)
          (fun st g st' hh => by
            rw [choosePortal_glyph q st g st' hh]
            exact portal_glyph_ne q p hq3 hp3 hqp)
          stream.length 2 grid stream g1 s1 hlen hall hpe
        have hrest := ih g1 s1 g' s' (by rw [hcc.2.1]) hcc.2.2
          (fun x hx => hq x (List.mem_cons_of_mem q hx)) hnd2 h
        constructor
        · intro hmem
          rcases List.mem_cons.mp hmem with h1 | h1
          · exact absurd h1.symm hqp
          · rw [hrest.1 h1, hcc.1]
        · intro hnm
          have hpn : p ∉ rest := fun hx => hnm (List.mem_cons_of_mem q hx)
          rw [hrest.2 hpn, hcc.1]

theorem countGrid_replicate_dot (rows cols : Nat) (ch : String) (hch : ch ≠ ".") :
    countGrid (List.replicate rows (List.replicate cols ".")) ch = 0 := by
  induction rows with
  | zero => simp [countGrid]
  | succ n ih =>
    simp only [List.replicate_succ, countGrid, List.map_cons, List.sum_cons] at *
    rw [ih]
    rw [List.count_replicate]
    rw [if_neg (by simp only [beq_iff_eq]; exact fun hh => hch hh.symm)]

theorem mirror_glyph_ne_portal (g : String)
    (hg : g = "/" ∨ g = "\\" ∨ g = "~" ∨ g = "`" ∨ g = "[/" ∨ g = "[\\" ∨ g = "]/" ∨
      g = "]\\" ∨ g = "\x7b/" ∨ g = "\x7b\\")
    (p : Nat) (hp : p < 3) : g ≠ PORTAL_CELLS.getD p "" := by
  interval_cases p <;>
    rcases hg with rfl | rfl | rfl | rfl | rfl | rfl | rfl | rfl | rfl | rfl <;>
    simp [PORTAL_CELLS]

theorem generate_grid_portal_count (rows cols mirror_count portal_count : Nat)
    (dist : Nat × Nat × Nat × Nat) (stream : List Nat) (g : List (List String))
    (s' : List Nat) (hrows : 1 ≤ rows) (hcols : 1 ≤ cols)
    (hgen : generate_grid rows cols mirror_count portal_count dist stream = some (g, s'))
    (p : Nat) (hp : p < min portal_count 3) :
    countGrid g (PORTAL_CELLS.getD p "") = 2 := by
  have hp3 : p < 3 := lt_of_lt_of_le hp (min_le_right _ _)
  have hchdot := portal_glyph_ne_dot p hp3
  have hdim0 : (List.replicate rows (List.replicate cols ".")).length = rows ∧
      ∀ row ∈ List.replicate rows (List.replicate cols "."), row.length = cols := by
    refine ⟨List.length_replicate rows _, fun row hrow => ?_⟩
    rw [List.eq_of_mem_replicate hrow, List.length_replicate]
  simp only [generate_grid] at hgen
  split at hgen
  · exact absurd hgen (by simp)
  · rename_i res1 g1 s1 h1
    split at hgen
    · exact absurd hgen (by simp)
    · rename_i res2 g2 s2 h2
      split at hgen
      · exact absurd hgen (by simp)
      · rename_i res3 g3 s3 h3
        split at hgen
        · exact absurd hgen (by simp)
        · rename_i res4 g4 s4 h4
          have hc1 := place_elements_count rows cols hrows hcols chooseNormal _ hchdot
            (fun st gl st' hh => mirror_glyph_ne_portal gl
              (by rcases chooseNormal_glyphs st gl st' hh with h | h <;> simp [h]) p hp3)
            _ _ _ _ _ _ hdim0.1 hdim0.2 h1
          have hc2 := place_elements_count rows cols hrows hcols chooseDegrading _ hchdot
            (fun st gl st' hh => mirror_glyph_ne_portal gl
              (by rcases chooseDegrading_glyphs st gl st' hh with h | h <;> simp [h]) p hp3)
            _ _ _ _ _ _ hc1.2.1 hc1.2.2 h2
          have hc3 := place_elements_count rows cols hrows hcols chooseToggle _ hchdot
            (fun st gl st' hh => mirror_glyph_ne_portal gl
              (by rcases chooseToggle_glyphs st gl st' hh with h | h | h | h <;> simp [h]) p hp3)
            _ _ _ _ _ _ hc2.2.1 hc2.2.2 h3
          have hc4 := place_elements_count rows cols hrows hcols chooseFlipping _ hchdot
            (fun st gl st' hh => mirror_glyph_ne_portal gl
              (by rcases chooseFlipping_glyphs st gl st' hh with h | h <;> simp [h]) p hp3)
            _ _ _ _ _ _ hc3.2.1 hc3.2.2 h4
          have hpp := place_portals_count rows cols hrows hcols p hp3
            (List.range (min portal_count PORTAL_CELLS.length)) g4 s4 g s'
            hc4.2.1 hc4.2.2
            (fun q hq => by
              have h5 := List.mem_range.mp hq
              have h6 : q < min portal_count 3 := by simpa [PORTAL_CELLS] using h5
              omega)
            (List.nodup_range _) hgen
          have hmem : p ∈ List.range (min portal_count PORTAL_CELLS.length) := by
            apply List.mem_range.mpr
            simpa [PORTAL_CELLS] using hp
          rw [hpp.1 hmem, hc4.1, hc3.1, hc2.1, hc1.1,
            countGrid_replicate_dot rows cols _ hchdot]

theorem trial_loop_pos_score (rows cols mirror_count portal_count : Nat)
    (dist : Nat × Nat × Nat × Nat) (min_bounces sim_fuel : Nat) :
    ∀ n best best_score stream res,
      (∀ q, best = some q → 0 < q.bounces + q.teleports * 2) →
      trial_loop rows cols mirror_count portal_count dist min_bounces sim_fuel
        n best best_score stream = some res →
      ∀ p, res = some p → 0 < p.bounces + p.teleports * 2 := by
  intro n
  induction n with
  | zero =>
    intro best bs stream res hbest h p hres
    simp only [trial_loop] at h
    cases h
    exact hbest p hres
  | succ n ih =>
    intro best bs stream res hbest h p hres
    simp only [trial_loop] at h
    split at h
    · exact absurd h (by simp)
    · rename_i r1 grid s1 h1
      split at h
      · exact absurd h (by simp)
      · rename_i r2 start_row s2 h2
        split at h
        · exact absurd h (by simp)
        · rename_i r3 result h3
          by_cases hgt : result.bounces + result.teleports * 2 > bs
          · rw [if_pos hgt, if_pos hgt] at h
            split at h
            · cases h
              injection hres with hres2
              subst hres2
              simp only [mkPuzzle]
              omega
            · exact ih (some (mkPuzzle grid start_row result))
                (result.bounces + result.teleports * 2) s2 res
                (fun q hq => by
                  injection hq with hq2
                  subst hq2
                  simp only [mkPuzzle]
                  omega)
                h p hres
          · rw [if_neg hgt, if_neg hgt] at h
            split at h
            · cases h
              exact hbest p hres
            · exact ih best bs s2 res hbest h p hres

/-! ## Claim theorems -/

/-- Claim C5: the reflection law is a total function over all 8
(direction, orientation) combinations — totality is immediate from the
types of `get_next_direction` — with exactly the mapping: Slash sends
Right to Up, Left to Down, Up to Right, Down to Left; Backslash sends
Right to Down, Left to Up, Up to Left, Down to Right. -/
theorem claim_C5_reflection_law :
    get_next_direction .right "/" = .up ∧ get_next_direction .left "/" = .down ∧
      get_next_direction .up "/" = .right ∧ get_next_direction .down "/" = .left ∧
      get_next_direction .right "\\" = .down ∧ get_next_direction .left "\\" = .up ∧
      get_next_direction .up "\\" = .left ∧ get_next_direction .down "\\" = .right := by
  decide

/-- Claim C3 (counterexample): at the start of a trace the ray's column is
0, not -1 — on the 1-by-1 empty grid the initial loop state has column 0,
refuting the claimed initial column of -1. -/
theorem claim_C3_counterexample :
    ¬((init_state [["."]] 0 .right).col = -1) := by
  decide

/-- Claim C3 (amended): at the start of every trace, before the first loop
iteration's boundary check, the state is row `start_row`, column 0 (the
first grid column, not -1: the source sets `col = 0`), the given
direction, all counters zero, the path empty and all mirror-state
containers empty; and `simulate_laser` runs its loop from exactly this
state. -/
theorem claim_C3_amended (grid : List (List String)) (start_row : Int) (d : Direction)
    (fuel : Nat) :
    init_state grid start_row d =
      { grid := grid, row := start_row, col := 0, direction := d, bounces := 0,
        teleports := 0, path := [], degraded_mirrors := [], toggle_state := [],
        flip_state := [] } ∧
      simulate_laser grid start_row d fuel = simLoop fuel (init_state grid start_row d) :=
  ⟨rfl, rfl⟩

/-- Claim C10: a trace never modifies the grid it is given.  The grid is
threaded through the simulation state, and after any number of loop
iterations the state's grid is the grid `simulate_laser` started from;
no branch of the loop body writes to it. -/
theorem claim_C10_grid_frame (grid : List (List String)) (start_row : Int) (d : Direction)
    (n : Nat) (s' : SimState)
    (h : traj (init_state grid start_row d) n = some s') :
    s'.grid = grid :=
  traj_grid _ n s' h

/-- Witness for C10 at a concrete grid and step count. -/
theorem claim_C10_grid_frame_witness :
    (init_state [["/", "."]] 0 .right).grid = [["/", "."]] :=
  claim_C10_grid_frame [["/", "."]] 0 .right 0 (init_state [["/", "."]] 0 .right) rfl

/-- Claim C4: entering a portal cell whose partner exists increments the
teleport count by exactly 1 and moves the ray to one cell past the
partner in the same, unchanged direction, skipping the normal advance
(the `advance` is applied to the partner's position, and the state record
keeps `direction` untouched); a portal with no partner behaves as a
degenerate Empty cell: the ray advances straight from its own position
and the teleport count is unchanged. -/
theorem claim_C4_portal (s : SimState) (cell : String)
    (hin : inBounds s)
    (hcell : cellAt s.grid s.row s.col = cell)
    (hportal : cell ∈ PORTAL_CELLS) :
    (∀ rc, find_portal_exit s.grid cell s.row s.col = some rc →
      simStep s = .cont (advance { s with
        path := s.path ++ [{ row := s.row, col := s.col, direction := s.direction }],
        teleports := s.teleports + 1, row := rc.1, col := rc.2 })) ∧
    (find_portal_exit s.grid cell s.row s.col = none → s.path.length + 1 ≤ 1000 →
      simStep s = .cont (advance { s with
        path := s.path ++ [{ row := s.row, col := s.col, direction := s.direction }] })) := by
  constructor
  · intro rc hf
    exact simStep_cont_of_inBounds_moved s _ hin
      (process_cell_portal_some _ cell rc hcell hportal hf)
  · intro hf hlen
    refine simStep_cont_of_inBounds_normal s _ hin
      (process_cell_portal_none _ cell hcell hportal hf) ?_
    rw [(advance_fields _).2.2.2.2.1]
    simp only [List.length_append, List.length_cons, List.length_nil]
    omega

/-- Witness for C4: on the grid `[["1", ".", "1"]]` the ray entering the
portal at (0,0) moving right teleports to the partner (0,2) and advances
to (0,3). -/
theorem claim_C4_portal_witness :
    simStep (init_state [["1", ".", "1"]] 0 .right) =
      .cont (advance { init_state [["1", ".", "1"]] 0 .right with
        path := [{ row := 0, col := 0, direction := .right }],
        teleports := 1, row := 0, col := 2 }) :=
  (claim_C4_portal (init_state [["1", ".", "1"]] 0 .right) "1"
    (by constructor <;> [decide; constructor <;> [decide; constructor <;> decide]])
    rfl (by decide)).1 (0, 2) rfl

set_option maxHeartbeats 2000000 in
theorem portal_loop_runaway (m : Nat) :
    ∀ (fuel : Nat) (path : List PathEntry) (k : Nat),
      path.length + 2 * m = 1000 → 2 * m + 2 < fuel →
      ∃ res,
        simLoop fuel (⟨[["1", ".", "1"]], 0, 0, .left, 0, k, path, [], [], []⟩ : SimState) =
          some res ∧
        res.exit = { edge := "right", position := .num 1 } ∧
        res.path.length = 1002 ∧ res.teleports = k + m + 1 ∧ res.bounces = 0 := by
  induction m with
  | zero =>
    intro fuel path k hlen hfuel
    obtain ⟨fuel, rfl⟩ : ∃ f, fuel = f + 2 := ⟨fuel - 2, by omega⟩
    have h1 : simStep (⟨[["1", ".", "1"]], 0, 0, .left, 0, k, path, [], [], []⟩ : SimState) =
        .cont (⟨[["1", ".", "1"]], 0, 1, .left, 0, k + 1, path ++ [⟨0, 0, .left⟩], [], [], []⟩ : SimState) := rfl
    have hpc := process_cell_empty (⟨[["1", ".", "1"]], 0, 1, .left, 0, k + 1, (path ++ [⟨0, 0, .left⟩]) ++ [⟨0, 1, .left⟩], [], [], []⟩ : SimState) rfl
    have h2 : simStep (⟨[["1", ".", "1"]], 0, 1, .left, 0, k + 1, path ++ [⟨0, 0, .left⟩], [], [], []⟩ : SimState) =
        .exit (make_result (⟨[["1", ".", "1"]], 0, 0, .left, 0, k + 1, (path ++ [⟨0, 0, .left⟩]) ++ [⟨0, 1, .left⟩], [], [], []⟩ : SimState) "right" (.num 1)) :=
      simStep_exit_of_inBounds_normal (⟨[["1", ".", "1"]], 0, 1, .left, 0, k + 1, path ++ [⟨0, 0, .left⟩], [], [], []⟩ : SimState)
        (⟨[["1", ".", "1"]], 0, 1, .left, 0, k + 1, (path ++ [⟨0, 0, .left⟩]) ++ [⟨0, 1, .left⟩], [], [], []⟩ : SimState)
        (show ((0 : Int) ≤ 0 ∧ (0 : Int) < ((1 : Nat) : Int) ∧ (0 : Int) ≤ 1 ∧
          (1 : Int) < ((3 : Nat) : Int)) by decide)
        hpc
        (by rw [(advance_fields _).2.2.2.2.1]
            simp only [List.length_append, List.length_cons, List.length_nil]
            omega)
    refine ⟨make_result (⟨[["1", ".", "1"]], 0, 0, .left, 0, k + 1, (path ++ [⟨0, 0, .left⟩]) ++ [⟨0, 1, .left⟩], [], [], []⟩ : SimState) "right" (.num 1), ?_, rfl, ?_, ?_, ?_⟩
    · simp only [simLoop, h1, h2]
    · simp only [make_result]
      simp only [List.length_append, List.length_cons, List.length_nil]
      omega
    · simp only [make_result]
    · simp only [make_result]
  | succ m ih =>
    intro fuel path k hlen hfuel
    obtain ⟨fuel, rfl⟩ : ∃ f, fuel = f + 2 := ⟨fuel - 2, by omega⟩
    have h1 : simStep (⟨[["1", ".", "1"]], 0, 0, .left, 0, k, path, [], [], []⟩ : SimState) =
        .cont (⟨[["1", ".", "1"]], 0, 1, .left, 0, k + 1, path ++ [⟨0, 0, .left⟩], [], [], []⟩ : SimState) := rfl
    have hpc := process_cell_empty (⟨[["1", ".", "1"]], 0, 1, .left, 0, k + 1, (path ++ [⟨0, 0, .left⟩]) ++ [⟨0, 1, .left⟩], [], [], []⟩ : SimState) rfl
    have h2 : simStep (⟨[["1", ".", "1"]], 0, 1, .left, 0, k + 1, path ++ [⟨0, 0, .left⟩], [], [], []⟩ : SimState) =
        .cont (⟨[["1", ".", "1"]], 0, 0, .left, 0, k + 1, (path ++ [⟨0, 0, .left⟩]) ++ [⟨0, 1, .left⟩], [], [], []⟩ : SimState) :=
      simStep_cont_of_inBounds_normal (⟨[["1", ".", "1"]], 0, 1, .left, 0, k + 1, path ++ [⟨0, 0, .left⟩], [], [], []⟩ : SimState)
        (⟨[["1", ".", "1"]], 0, 1, .left, 0, k + 1, (path ++ [⟨0, 0, .left⟩]) ++ [⟨0, 1, .left⟩], [], [], []⟩ : SimState)
        (show ((0 : Int) ≤ 0 ∧ (0 : Int) < ((1 : Nat) : Int) ∧ (0 : Int) ≤ 1 ∧
          (1 : Int) < ((3 : Nat) : Int)) by decide)
        hpc
        (by rw [(advance_fields _).2.2.2.2.1]
            simp only [List.length_append, List.length_cons, List.length_nil]
            omega)
    simp only [simLoop, h1, h2]
    obtain ⟨res, hres, he, hp, ht, hb⟩ := ih fuel
      ((path ++ [⟨0, 0, .left⟩]) ++ [⟨0, 1, .left⟩]) (k + 1)
      (by simp only [List.length_append, List.length_cons, List.length_nil]; omega)
      (by omega)
    exact ⟨res, hres, he, hp, by rw [ht]; omega, hb⟩

/-- Claim C1 (counterexample): the runaway ceiling does not produce a
distinguished failure variant.  On the grid `[["1", ".", "1"]]` with the
ray started moving left, the portal pair cycles the ray; once the
recorded steps exceed 1000 the loop breaks and the trace returns an
ordinary — fabricated — exit descriptor, edge "right" position 1, after
1002 recorded steps, 501 teleports and 0 bounces. -/
theorem claim_C1_counterexample :
    ∃ res, simulate_laser [["1", ".", "1"]] 0 .left 1100 = some res ∧
      res.exit = { edge := "right", position := .num 1 } ∧
      res.path.length = 1002 ∧ res.teleports = 501 ∧ res.bounces = 0 := by
  obtain ⟨res, hres, he, hp, ht, hb⟩ := portal_loop_runaway 500 1100 [] 0 (by decide) (by decide)
  exact ⟨res, hres, he, hp, ht, hb⟩

/-- Claim C1 (amended): when the recorded steps have reached the ceiling
(path length at least 1000 before the iteration) and the iteration is not
short-circuited by a successful portal teleport (whose `continue` skips
the runaway check), the loop breaks and returns a fabricated exit
descriptor with edge "right" and position 1 — an ordinary exit value,
not a distinguished failure variant — with more than 1000 recorded
steps. -/
theorem claim_C1_amended (s : SimState)
    (hin : inBounds s) (hlen : 1000 ≤ s.path.length)
    (hnoportal : ¬(cellAt s.grid s.row s.col ∈ PORTAL_CELLS ∧
      (find_portal_exit s.grid (cellAt s.grid s.row s.col) s.row s.col).isSome)) :
    ∃ r, simStep s = .exit r ∧ r.exit = { edge := "right", position := .num 1 } ∧
      1000 < r.path.length := by
  cases hpc : process_cell
      { s with path := s.path ++ [{ row := s.row, col := s.col, direction := s.direction }] } with
  | moved s2 =>
    exact absurd (process_cell_moved_frame _ s2 hpc).2.2.2.2.2.2.2 hnoportal
  | normal s2 =>
    have hlen2 : (advance s2).path.length > 1000 := by
      rw [(advance_fields _).2.2.2.2.1, (process_cell_normal_frame _ s2 hpc).2.2.2.1]
      simp only [List.length_append, List.length_cons, List.length_nil]
      omega
    refine ⟨_, simStep_exit_of_inBounds_normal s s2 hin hpc hlen2, rfl, ?_⟩
    exact hlen2

/-- Witness for the amended C1 at a concrete state: a 1-by-1 empty grid
with 1000 steps already recorded. -/
theorem claim_C1_amended_witness :
    ∃ r,
      simStep ({ grid := [["."]], row := 0, col := 0, direction := .right,
                 bounces := 0, teleports := 0,
                 path := List.replicate 1000 ⟨0, 0, .right⟩,
                 degraded_mirrors := [], toggle_state := [],
                 flip_state := [] } : SimState) = .exit r ∧
      r.exit = { edge := "right", position := .num 1 } ∧ 1000 < r.path.length :=
  claim_C1_amended _
    (by constructor <;> [decide; constructor <;> [decide; constructor <;> decide]])
    (by simp only [List.length_replicate]; omega) (by decide)

/-- Claim C7: a DegradingMirror cell reflects the ray and increments the
reflection count on its first visit only (when no earlier iteration
processed that position); on any later visit the direction and the
reflection count are unchanged, as for an Empty cell. -/
theorem claim_C7_degrading (grid : List (List String)) (start_row : Int) (d : Direction)
    (pos : Int × Int) (c : String) (n : Nat) (s s' : SimState)
    (hcell : cellAt grid pos.1 pos.2 = c) (hd : c = "~" ∨ c = "`")
    (htraj : traj (init_state grid start_row d) n = some s)
    (hstep : simStep s = .cont s')
    (hvis : (s.row, s.col) = pos) :
    (visitCountBefore (init_state grid start_row d) pos n = 0 →
      s'.bounces = s.bounces + 1 ∧
      s'.direction = get_next_direction s.direction ((dictGet DEGRADING_MIRRORS c).getD "")) ∧
    (0 < visitCountBefore (init_state grid start_row d) pos n →
      s'.bounces = s.bounces ∧ s'.direction = s.direction) := by
  have hg : s.grid = grid := traj_grid _ n s htraj
  have hrc : s.row = pos.1 ∧ s.col = pos.2 := by rw [← hvis]; exact ⟨rfl, rfl⟩
  have hc1 : cellAt s.grid s.row s.col = c := by rw [hg, hrc.1, hrc.2, hcell]
  have hmem := degraded_iff_visited grid start_row d pos c hcell hd n s htraj
  obtain ⟨hinB, hcase⟩ := simStep_cont_elim s s' hstep
  rcases hcase with ⟨s2, hp, heq⟩ | ⟨s2, hp, heq, hlen⟩
  · have hport := (process_cell_moved_frame _ _ hp).2.2.2.2.2.2.2.1
    rcases hd with hh | hh <;> subst hh <;>
      · simp only [show ({ s with
            path := s.path ++ [⟨s.row, s.col, s.direction⟩] } : SimState).grid = s.grid
            from rfl] at hport
        rw [hc1] at hport
        simp [PORTAL_CELLS] at hport
  · constructor
    · intro hzero
      have hnm : pos ∉ s.degraded_mirrors := by
        rw [hmem]
        omega
      have hpc := process_cell_degrading_hit
        { s with path := s.path ++ [⟨s.row, s.col, s.direction⟩] } c (by simpa using hc1) hd
        (by simpa [hvis] using hnm)
      rw [hpc] at hp
      cases hp
      subst heq
      exact ⟨by rw [(advance_fields _).2.2.1], by rw [(advance_fields _).2.1]⟩
    · intro hposv
      have hmem2 : pos ∈ s.degraded_mirrors := hmem.mpr hposv
      have hpc := process_cell_degrading_pass
        { s with path := s.path ++ [⟨s.row, s.col, s.direction⟩] } c (by simpa using hc1) hd
        (by simpa [hvis] using hmem2)
      rw [hpc] at hp
      cases hp
      subst heq
      exact ⟨by rw [(advance_fields _).2.2.1], by rw [(advance_fields _).2.1]⟩

/-- Witness for C7 on `c7Grid`: at iteration 3 the ray re-enters the
degrading mirror at (1,1) (its second visit, one earlier visit recorded),
and the step leaves both the bounce count and the direction unchanged. -/
theorem claim_C7_degrading_witness :
    ((traj (init_state c7Grid 1 .right) 4).getD (init_state c7Grid 1 .right)).bounces =
      ((traj (init_state c7Grid 1 .right) 3).getD (init_state c7Grid 1 .right)).bounces ∧
    ((traj (init_state c7Grid 1 .right) 4).getD (init_state c7Grid 1 .right)).direction =
      ((traj (init_state c7Grid 1 .right) 3).getD (init_state c7Grid 1 .right)).direction :=
  (claim_C7_degrading c7Grid 1 .right (1, 1) "~" 3
    ((traj (init_state c7Grid 1 .right) 3).getD (init_state c7Grid 1 .right))
    ((traj (init_state c7Grid 1 .right) 4).getD (init_state c7Grid 1 .right))
    rfl (Or.inl rfl) (by rfl) (by rfl) (by rfl)).2 (by decide)

/-- Claim C6: a ToggleMirror cell reflects the ray (and increments the
reflection count) exactly on those visits at which its on-state is true —
the on-state at a visit preceded by `v` earlier visits is the initial
state (ON for `[/` and `[\`) xor the parity of `v` — and its stored
on-state flips on every visit whether or not it reflected.  Consequently
a ToggleMirror starting ON reflects on its 1st, 3rd, 5th... visits
(`v` even) and passes straight through on its 2nd, 4th, 6th... visits. -/
theorem claim_C6_toggle (grid : List (List String)) (start_row : Int) (d : Direction)
    (pos : Int × Int) (c : String) (n : Nat) (s s' : SimState)
    (hcell : cellAt grid pos.1 pos.2 = c)
    (ht : c = "[/" ∨ c = "[\\" ∨ c = "]/" ∨ c = "]\\")
    (htraj : traj (init_state grid start_row d) n = some s)
    (hstep : simStep s = .cont s')
    (hvis : (s.row, s.col) = pos) :
    s'.direction = (if xor (dictMem TOGGLE_MIRRORS_ON c)
        (decide (visitCountBefore (init_state grid start_row d) pos n % 2 = 1)) then
        get_next_direction s.direction
          (((dictGet TOGGLE_MIRRORS_ON c).orElse fun _ => dictGet TOGGLE_MIRRORS_OFF c).getD "")
      else s.direction) ∧
    s'.bounces = (if xor (dictMem TOGGLE_MIRRORS_ON c)
        (decide (visitCountBefore (init_state grid start_row d) pos n % 2 = 1)) then
        s.bounces + 1 else s.bounces) ∧
    assocLookup s'.toggle_state pos = some (!xor (dictMem TOGGLE_MIRRORS_ON c)
      (decide (visitCountBefore (init_state grid start_row d) pos n % 2 = 1))) := by
  have hg : s.grid = grid := traj_grid _ n s htraj
  have hrc : s.row = pos.1 ∧ s.col = pos.2 := by rw [← hvis]; exact ⟨rfl, rfl⟩
  have hc1 : cellAt s.grid s.row s.col = c := by rw [hg, hrc.1, hrc.2, hcell]
  have hlkinv := toggle_lookup_visits grid start_row d pos c hcell ht n s htraj
  have hcur : (assocLookup s.toggle_state pos).getD (dictMem TOGGLE_MIRRORS_ON c) =
      xor (dictMem TOGGLE_MIRRORS_ON c)
        (decide (visitCountBefore (init_state grid start_row d) pos n % 2 = 1)) := by
    rw [hlkinv]
    by_cases hz : visitCountBefore (init_state grid start_row d) pos n = 0
    · simp [hz]
    · rw [if_neg hz]
      simp
  obtain ⟨hinB, hcase⟩ := simStep_cont_elim s s' hstep
  rcases hcase with ⟨s2, hp, heq⟩ | ⟨s2, hp, heq, hlen⟩
  · have hport := (process_cell_moved_frame _ _ hp).2.2.2.2.2.2.2.1
    rcases ht with hh | hh | hh | hh <;> subst hh <;>
      · simp only [show ({ s with
            path := s.path ++ [⟨s.row, s.col, s.direction⟩] } : SimState).grid = s.grid
            from rfl] at hport
        rw [hc1] at hport
        simp [PORTAL_CELLS] at hport
  · obtain ⟨t, hpc, hdir, hbn, hlk, hgr, hrow, hcol, hpath, htel, hdeg⟩ :=
      process_cell_toggle { s with path := s.path ++ [⟨s.row, s.col, s.direction⟩] } c
        (xor (dictMem TOGGLE_MIRRORS_ON c)
          (decide (visitCountBefore (init_state grid start_row d) pos n % 2 = 1)))
        (by simpa using hc1) ht (by simpa [hvis] using hcur)
    rw [hpc] at hp
    cases hp
    subst heq
    refine ⟨?_, ?_, ?_⟩
    · rw [(advance_fields _).2.1, hdir]
    · rw [(advance_fields _).2.2.1, hbn]
    · rw [(advance_fields _).2.2.2.2.2.2.1]
      have h2 : ((s.row : Int), (s.col : Int)) = pos := hvis
      simpa [h2] using hlk

/-- Witness for C6 on `c6Grid`: at iteration 3 the ray re-enters the
toggle mirror at (1,1) for its second visit (one earlier visit, odd
parity, so the ON-starting mirror is currently OFF): the step keeps
direction and bounces and flips the stored state back to true. -/
theorem claim_C6_toggle_witness :
    ((traj (init_state c6Grid 1 .right) 4).getD (init_state c6Grid 1 .right)).direction =
      ((traj (init_state c6Grid 1 .right) 3).getD (init_state c6Grid 1 .right)).direction ∧
    ((traj (init_state c6Grid 1 .right) 4).getD (init_state c6Grid 1 .right)).bounces =
      ((traj (init_state c6Grid 1 .right) 3).getD (init_state c6Grid 1 .right)).bounces ∧
    assocLookup
      ((traj (init_state c6Grid 1 .right) 4).getD (init_state c6Grid 1 .right)).toggle_state
      (1, 1) = some true := by
  have h := claim_C6_toggle c6Grid 1 .right (1, 1) "[/" 3
    ((traj (init_state c6Grid 1 .right) 3).getD (init_state c6Grid 1 .right))
    ((traj (init_state c6Grid 1 .right) 4).getD (init_state c6Grid 1 .right))
    rfl (Or.inl rfl) (by rfl) (by rfl) (by rfl)
  refine ⟨?_, ?_, ?_⟩
  · rw [h.1]
    decide
  · rw [h.2.1]
    decide
  · rw [h.2.2]
    decide

/-- Claim C8 (counterexample): the straight-line property fails on
all-empty grids wider than the runaway ceiling.  On the 2-by-1001 empty
grid with start row 1 the runaway break fires before the boundary check
that would report the true exit, and the trace returns the fabricated
position 1 instead of the 1-indexed start row 2. -/
theorem claim_C8_counterexample :
    ∃ res, simulate_laser (List.replicate 2 (List.replicate 1001 ".")) 1 .right 1002 =
        some res ∧
      res.exit.edge = "right" ∧ res.exit.position = .num 1 ∧
      ¬(res.exit.position = .num (1 + 1)) := by
  obtain ⟨res, h1, h2, h3, h4, h5⟩ := simLoop_empty_grid_runaway
    (List.replicate 2 (List.replicate 1001 ".")) 1001
    (fun row hrow => by rw [List.eq_of_mem_replicate hrow, List.length_replicate])
    (fun row hrow cell hcell => by
      rw [List.eq_of_mem_replicate hrow] at hcell
      exact List.eq_of_mem_replicate hcell)
    (by rw [show (List.replicate 2 (List.replicate 1001 ".")).getD 0 [] =
        List.replicate 1001 "." from rfl, List.length_replicate])
    (by omega)
    1000 1002 (init_state (List.replicate 2 (List.replicate 1001 ".")) 1 .right) 0
    rfl (by decide) (by decide) rfl rfl (by omega) rfl (by omega)
  refine ⟨res, h1, by rw [h2], by rw [h2], by rw [h2]; simp⟩

/-- Claim C8 (amended): for every all-empty grid with at most 1000
columns (the runaway ceiling) and every valid start row, the trace exits
from the right edge at the 1-indexed start row with zero reflections and
zero teleports; the bound on the columns is forced by the runaway break,
which on wider grids fires first and fabricates position 1. -/
theorem claim_C8_amended (grid : List (List String)) (cols : Nat) (start_row : Nat)
    (fuel : Nat)
    (hrows : ∀ row ∈ grid, row.length = cols)
    (hempty : ∀ row ∈ grid, ∀ cell ∈ row, cell = ".")
    (hstart : start_row < grid.length)
    (hcols1000 : cols ≤ 1000)
    (hfuel : cols < fuel) :
    ∃ res, simulate_laser grid (start_row : Int) .right fuel = some res ∧
      res.exit = { edge := "right", position := .num ((start_row : Int) + 1) } ∧
      res.bounces = 0 ∧ res.teleports = 0 := by
  have hg0 : (grid.getD 0 []).length = cols := by
    cases grid with
    | nil => simp at hstart
    | cons hd tl =>
      simp only [List.getD_cons_zero]
      exact hrows hd (List.mem_cons_self hd tl)
  obtain ⟨res, h1, h2, h3, h4⟩ := simLoop_empty_grid grid cols hrows hempty hg0 hcols1000
    cols fuel (init_state grid start_row .right) 0
    rfl (by simp [init_state]) (by simp only [init_state]; omega) rfl rfl
    (by omega) rfl (by omega)
  exact ⟨res, h1, h2, h3, h4⟩

/-- Witness for the amended C8 on the 1-by-1 empty grid. -/
theorem claim_C8_amended_witness :
    ∃ res, simulate_laser [["."]] ((0 : Nat) : Int) .right 2 = some res ∧
      res.exit = { edge := "right", position := .num (((0 : Nat) : Int) + 1) } ∧
      res.bounces = 0 ∧ res.teleports = 0 :=
  claim_C8_amended [["."]] 1 0 2 (by decide) (by decide) (by decide) (by decide) (by decide)

/-- Claim C9: every grid produced by the generator's grid-construction
step carries each placed portal id on exactly two cells: for every
`p < min(portal_count, 3)` the number of cells holding `PORTAL_CELLS[p]`
is exactly 2 (two distinct cells, as each cell holds a single glyph).
The mirror-placement phases never write portal glyphs, each portal pair
phase writes its glyph onto exactly two empty cells, and later pairs
never overwrite them. -/
theorem claim_C9_portal_pairs (rows cols mirror_count portal_count : Nat)
    (dist : Nat × Nat × Nat × Nat) (stream : List Nat) (g : List (List String))
    (s' : List Nat) (hrows : 1 ≤ rows) (hcols : 1 ≤ cols)
    (hgen : generate_grid rows cols mirror_count portal_count dist stream = some (g, s'))
    (p : Nat) (hp : p < min portal_count 3) :
    countGrid g (PORTAL_CELLS.getD p "") = 2 :=
  generate_grid_portal_count rows cols mirror_count portal_count dist stream g s'
    hrows hcols hgen p hp

/-- Witness for C9 on a concrete 2-by-2 generation with one portal pair. -/
theorem claim_C9_portal_pairs_witness :
    countGrid (((generate_grid 2 2 0 1 (100, 0, 0, 0) [0, 0, 1, 1]).getD ([], [])).1) "1" = 2 :=
  claim_C9_portal_pairs 2 2 0 1 (100, 0, 0, 0) [0, 0, 1, 1]
    (((generate_grid 2 2 0 1 (100, 0, 0, 0) [0, 0, 1, 1]).getD ([], [])).1)
    (((generate_grid 2 2 0 1 (100, 0, 0, 0) [0, 0, 1, 1]).getD ([], [])).2)
    (by decide) (by decide) (by rfl) 0 (by decide)

/-- Claim C2 (counterexample): generate does not always return a Puzzle.
On the concrete random stream `c2Stream` — 5 rows, 6 columns, 4 mirrors,
then 100 trials that each place their mirrors in row 0 while the ray runs
along row 1, so every trial scores 0 — the search completes all 100
trials and returns Python `None` (modelled as the inner `none`). -/
theorem claim_C2_counterexample :
    generate_puzzle "small" none 100 c2Stream = some none := by
  have htrial : ∀ (n : Nat) (rest : List Nat),
      trial_loop 5 6 4 0 (100, 0, 0, 0) 3 100 (n + 1) none 0 (c2Block ++ rest) =
        trial_loop 5 6 4 0 (100, 0, 0, 0) 3 100 n none 0 rest := fun n rest => rfl
  have hrep : ∀ n : Nat, trial_loop 5 6 4 0 (100, 0, 0, 0) 3 100 n none 0
      (List.flatten (List.replicate n c2Block)) = some none := by
    intro n
    induction n with
    | zero => rfl
    | succ n ih => rw [List.replicate_succ, List.flatten_cons, htrial n, ih]
  exact hrep 100

/-- Claim C2 (amended): generate runs its bounded trial search (at most
100 trials, the loop bound) and returns an optional best candidate, not
always a Puzzle: whenever the completed search returns a Puzzle, that
Puzzle's complexity score (bounces + 2 × teleports) is positive, because
a candidate is only recorded when its score strictly beats the running
best score, which starts at 0; hence a run in which no trial scores above
0 — possible even when no trial reaches the 2 × min_bounces threshold —
returns None instead of a Puzzle. -/
theorem claim_C2_amended (size : String) (min_bounces : Option Nat) (sim_fuel : Nat)
    (stream : List Nat) (res : Option Puzzle) (p : Puzzle)
    (h : generate_puzzle size min_bounces sim_fuel stream = some res)
    (hp : res = some p) :
    0 < p.bounces + p.teleports * 2 := by
  simp only [generate_puzzle] at h
  split at h
  · exact absurd h (by simp)
  · split at h
    · exact absurd h (by simp)
    · split at h
      · exact absurd h (by simp)
      · split at h
        · exact absurd h (by simp)
        · exact trial_loop_pos_score _ _ _ _ _ _ _ 100 none 0 _ res
            (fun q hq => absurd hq (by simp)) h p hp

set_option maxRecDepth 100000 in
set_option maxHeartbeats 4000000 in
/-- Witness for the amended C2: on `c2wStream` the first trial reflects
once, the search returns that Puzzle, and its score is positive. -/
theorem claim_C2_amended_witness :
    0 < c2WitnessPuzzle.bounces + c2WitnessPuzzle.teleports * 2 :=
  claim_C2_amended "small" (some 0) 100 c2wStream (some c2WitnessPuzzle) c2WitnessPuzzle
    (by rfl) rfl
